/-
  Verification of the document structure extractor
  (backend/app/core/pdf_parser_1a.py).

  The Python functions are shallowly embedded as executable Lean
  definitions.  Python floats are modelled as exact rationals (the Q type);
  Python strings as Lean `String`/`List Char` (ASCII semantics for
  case predicates); Python dicts as structures with total fields.
  Exceptions that the source catches locally are modelled by the
  corresponding guarded branches.
-/
import Mathlib

set_option maxHeartbeats 1000000

/-! ## Python string primitives -/

/-- Python whitespace for `str.strip` / `str.split` / regex `\s` (ASCII part). -/
def pyIsSpace (c : Char) : Bool :=
  c = ' ' || c = '\t' || c = '\n' || c = '\r' || c = Char.ofNat 11 || c = Char.ofNat 12

/-- Python `str.strip()` on a character list. -/
def pyStripL (l : List Char) : List Char :=
  ((l.dropWhile pyIsSpace).reverse.dropWhile pyIsSpace).reverse

/-- Python `str.strip()`. -/
def pyStrip (s : String) : String := ⟨pyStripL s.data⟩

/-- Python `str.lower()` (ASCII). -/
def pyLower (l : List Char) : List Char := l.map Char.toLower

/-- Helper for `pySplit`: accumulate the current word (reversed). -/
def pySplitAux : List Char → List Char → List (List Char)
  | [], acc => if acc.isEmpty then [] else [acc.reverse]
  | c :: r, acc =>
    if pyIsSpace c then
      if acc.isEmpty then pySplitAux r [] else acc.reverse :: pySplitAux r []
    else pySplitAux r (c :: acc)

/-- Python `str.split()` with no argument: split on whitespace runs, dropping empties. -/
def pySplit (l : List Char) : List (List Char) := pySplitAux l []

/-- Python `str.isdigit()` (ASCII digits). -/
def pyIsDigitStr (l : List Char) : Bool := !l.isEmpty && l.all Char.isDigit

/-- Python `str.isupper()` (ASCII): some cased character, and no lowercase one. -/
def pyIsUpper (l : List Char) : Bool :=
  l.any Char.isAlpha && l.all (fun c => !c.isLower)

/-- State step for Python `str.istitle()` (ASCII):
    tracks (previous char was cased, still title-cased, found a cased char). -/
def pyIsTitleStep (st : Bool × Bool × Bool) (c : Char) : Bool × Bool × Bool :=
  let (prevCased, ok, found) := st
  if c.isUpper then (true, ok && !prevCased, true)
  else if c.isLower then (true, ok && prevCased, true)
  else (false, ok, found)

/-- Python `str.istitle()` (ASCII). -/
def pyIsTitle (l : List Char) : Bool :=
  let (_, ok, found) := l.foldl pyIsTitleStep (false, true, false)
  ok && found

/-- Python `str.endswith(cs)` for a tuple of single characters. -/
def pyEndsWithAny (l : List Char) (cs : List Char) : Bool :=
  match l.getLast? with
  | some c => cs.contains c
  | none => false

/-- Python `sub in s` substring containment on character lists. -/
def containsSub (pat : List Char) : List Char → Bool
  | [] => pat.isEmpty
  | c :: r => pat.isPrefixOf (c :: r) || containsSub pat r

/-! ## Decimal rendering and parsing (for `f"H{n}"` and `int(...)`) -/

/-- Decimal digit character for a value below 10. -/
def decDigit : Nat → Char
  | 0 => '0' | 1 => '1' | 2 => '2' | 3 => '3' | 4 => '4'
  | 5 => '5' | 6 => '6' | 7 => '7' | 8 => '8' | 9 => '9'
  | _ => '*'

/-- Fuel-driven decimal rendering accumulator (fuel ≥ value suffices). -/
def natToDecimalAux : Nat → Nat → List Char → List Char
  | 0, m, acc => decDigit (m % 10) :: acc
  | f + 1, m, acc =>
    if m < 10 then decDigit m :: acc
    else natToDecimalAux f (m / 10) (decDigit (m % 10) :: acc)

/-- Decimal rendering of a natural number, as Python `str(n)`. -/
def natToDecimal (n : Nat) : List Char := natToDecimalAux n n []

/-- Parse a list of decimal digit characters (most significant first). -/
def digitsToNat (l : List Char) : Nat :=
  l.foldl (fun a c => 10 * a + (c.toNat - 48)) 0

/-- Python `int(s.replace('H', ''))` as used on heading level labels:
    drop every 'H' and parse the remaining decimal digits (0 on garbage,
    where the source would raise; labels in the pipeline are well formed). -/
def levelToNat (s : String) : Nat :=
  let ds := s.data.filter (fun c => c ≠ 'H')
  if ds.isEmpty then 0
  else if ds.all Char.isDigit then digitsToNat ds else 0

/-- Python `f"H{n}"`. -/
def natToLevel (n : Nat) : String := ⟨'H' :: natToDecimal n⟩

theorem decDigit_spec (m : Nat) (h : m < 10) :
    (decDigit m).toNat - 48 = m ∧ (decDigit m).isDigit = true ∧ decDigit m ≠ 'H' := by
  interval_cases m <;> exact ⟨by decide, by decide, by decide⟩

theorem natToDecimalAux_fuel (f g m : Nat) (acc : List Char)
    (hf : m ≤ f) (hg : m ≤ g) :
    natToDecimalAux f m acc = natToDecimalAux g m acc := by
  induction f generalizing g m acc with
  | zero =>
    have hm : m = 0 := Nat.le_zero.mp hf
    subst hm
    cases g with
    | zero => rfl
    | succ g => simp [natToDecimalAux]
  | succ f ih =>
    cases g with
    | zero =>
      have hm : m = 0 := Nat.le_zero.mp hg
      subst hm
      simp [natToDecimalAux]
    | succ g =>
      by_cases hm : m < 10
      · simp [natToDecimalAux, hm]
      · have hdiv : m / 10 < m := Nat.div_lt_self (by omega) (by omega)
        simp only [natToDecimalAux, if_neg hm]
        exact ih g (m / 10) _ (by omega) (by omega)

theorem natToDecimalAux_acc (f m : Nat) (acc : List Char) :
    natToDecimalAux f m acc = natToDecimalAux f m [] ++ acc := by
  induction f generalizing m acc with
  | zero => rfl
  | succ f ih =>
    by_cases hm : m < 10
    · simp [natToDecimalAux, hm]
    · simp only [natToDecimalAux, if_neg hm]
      rw [ih (m / 10) (decDigit (m % 10) :: acc),
          ih (m / 10) [decDigit (m % 10)]]
      simp

theorem natToDecimal_step (m : Nat) (hm : ¬ m < 10) :
    natToDecimal m = natToDecimal (m / 10) ++ [decDigit (m % 10)] := by
  have hdiv : m / 10 < m := Nat.div_lt_self (by omega) (by omega)
  cases m with
  | zero => omega
  | succ k =>
    show natToDecimalAux (k + 1) (k + 1) [] = _
    simp only [natToDecimalAux, if_neg hm]
    rw [natToDecimalAux_acc]
    rw [natToDecimalAux_fuel k ((k+1)/10) ((k+1)/10) [] (by omega) (le_refl _)]
    rfl

theorem natToDecimal_spec (m : Nat) :
    digitsToNat (natToDecimal m) = m ∧ (natToDecimal m) ≠ [] ∧
      (∀ c ∈ natToDecimal m, c.isDigit = true ∧ c ≠ 'H') := by
  induction m using Nat.strong_induction_on with
  | _ m ih =>
    by_cases hm : m < 10
    · have hrepr : natToDecimal m = [decDigit m] := by
        cases m with
        | zero => rfl
        | succ k => simp [natToDecimal, natToDecimalAux, hm]
      obtain ⟨hval, hdig, hH⟩ := decDigit_spec m hm
      refine ⟨?_, by simp [hrepr], ?_⟩
      · simp [hrepr, digitsToNat, hval]
      · intro c hc
        rw [hrepr] at hc
        simp at hc
        subst hc
        exact ⟨hdig, hH⟩
    · have hlt : m / 10 < m := Nat.div_lt_self (by omega) (by omega)
      have hrepr : natToDecimal m = natToDecimal (m / 10) ++ [decDigit (m % 10)] :=
        natToDecimal_step m hm
      obtain ⟨ihval, ihne, ihall⟩ := ih (m / 10) hlt
      obtain ⟨hval, hdig, hH⟩ := decDigit_spec (m % 10) (Nat.mod_lt _ (by omega))
      refine ⟨?_, by simp [hrepr], ?_⟩
      · rw [hrepr]
        unfold digitsToNat
        rw [List.foldl_append]
        show 10 * digitsToNat (natToDecimal (m / 10)) + ((decDigit (m % 10)).toNat - 48) = m
        rw [ihval, hval]
        omega
      · intro c hc
        rw [hrepr] at hc
        rcases List.mem_append.mp hc with h1 | h1
        · exact ihall c h1
        · simp at h1; subst h1; exact ⟨hdig, hH⟩

theorem levelToNat_natToLevel (n : Nat) : levelToNat (natToLevel n) = n := by
  obtain ⟨hval, hne, hall⟩ := natToDecimal_spec n
  unfold levelToNat natToLevel
  have hdata : (String.mk ('H' :: natToDecimal n)).data = 'H' :: natToDecimal n := rfl
  rw [hdata]
  have hfilter : ('H' :: natToDecimal n).filter (fun c => c ≠ 'H') = natToDecimal n := by
    simp only [List.filter_cons, decide_eq_true_eq]
    rw [if_neg (by simp)]
    exact List.filter_eq_self.mpr (fun c hc => by
      simp only [decide_eq_true_eq]
      exact (hall c hc).2)
  simp only [hfilter]
  rw [if_neg (by simp [List.isEmpty_iff, hne]), if_pos (by
    exact List.all_eq_true.mpr (fun c hc => (hall c hc).1))]
  exact hval

/-! ## Hierarchy validator (`validate_hierarchy`, source lines 29-60) -/

/-- A heading at the final stage of the pipeline (the transient `y_pos`
    key has been deleted before `validate_hierarchy` runs). -/
structure Heading where
  level : String
  text : String
  page : Nat
  content : String
deriving DecidableEq, Repr

/-- One step of `validate_hierarchy`'s loop body: clamp level 4 to 3 and
    demote a level skip to `last_level + 1`.  Returns the (possibly
    rewritten) heading and the new `last_level`. -/
def validateStep (last : Nat) (h : Heading) : Heading × Nat :=
  let c0 := levelToNat h.level
  let c1 := if c0 = 4 then 3 else c0
  let c2 := if c1 > last + 1 then last + 1 else c1
  let lbl := if c1 > last + 1 then natToLevel (last + 1)
             else if c0 = 4 then "H3" else h.level
  ({ h with level := lbl }, c2)

/-- The validator's left-to-right pass with accumulator `last_level`. -/
def validateGo (last : Nat) : List Heading → List Heading
  | [] => []
  | h :: hs =>
    let s := validateStep last h
    s.1 :: validateGo s.2 hs

/-- `validate_hierarchy` from the source: `last_level` starts at 0. -/
def validate_hierarchy (headings : List Heading) : List Heading :=
  validateGo 0 headings

/-- Clamping of level 4 to level 3. -/
def clamp4 (n : Nat) : Nat := if n = 4 then 3 else n

/-- The pure integer-level trace of one validator step. -/
def hierStep (last n : Nat) : Nat :=
  if clamp4 n > last + 1 then last + 1 else clamp4 n

/-- The pure integer-level trace of the whole validator pass. -/
def hierLevels (last : Nat) : List Nat → List Nat
  | [] => []
  | n :: ns =>
    let c := hierStep last n
    c :: hierLevels c ns

theorem validateStep_snd (last : Nat) (h : Heading) :
    (validateStep last h).2 = hierStep last (levelToNat h.level) := by
  unfold validateStep hierStep clamp4
  rfl

theorem validateStep_level (last : Nat) (h : Heading) :
    levelToNat (validateStep last h).1.level = hierStep last (levelToNat h.level) := by
  unfold validateStep hierStep clamp4
  by_cases h4 : levelToNat h.level = 4
  · rw [h4]
    by_cases hd : (3 : Nat) > last + 1
    · simp [hd, levelToNat_natToLevel]
    · simp only [if_pos rfl, if_neg hd, reduceIte]
      decide
  · by_cases hd : levelToNat h.level > last + 1
    · simp [h4, hd, levelToNat_natToLevel]
    · simp [h4, hd]

theorem validateStep_fields (last : Nat) (h : Heading) :
    (validateStep last h).1.text = h.text ∧ (validateStep last h).1.page = h.page ∧
      (validateStep last h).1.content = h.content := by
  unfold validateStep
  exact ⟨rfl, rfl, rfl⟩

theorem clamp4_le (n : Nat) : clamp4 n ≤ n := by
  unfold clamp4; split <;> omega

theorem hierStep_le_succ (last n : Nat) : hierStep last n ≤ last + 1 := by
  have := clamp4_le n
  unfold hierStep
  split <;> omega

theorem hierStep_le_self (last n : Nat) : hierStep last n ≤ n := by
  have := clamp4_le n
  unfold hierStep
  split <;> omega

theorem validateGo_levels (hs : List Heading) (last : Nat) :
    (validateGo last hs).map (fun h => levelToNat h.level) =
      hierLevels last (hs.map (fun h => levelToNat h.level)) := by
  induction hs generalizing last with
  | nil => rfl
  | cons h hs ih =>
    simp only [validateGo, hierLevels, List.map_cons]
    rw [validateStep_level, validateStep_snd, ih]

theorem validateGo_fields (hs : List Heading) (last : Nat) :
    (validateGo last hs).map (fun h => (h.text, h.page, h.content)) =
      hs.map (fun h => (h.text, h.page, h.content)) := by
  induction hs generalizing last with
  | nil => rfl
  | cons h hs ih =>
    simp only [validateGo, List.map_cons]
    obtain ⟨h1, h2, h3⟩ := validateStep_fields last h
    rw [h1, h2, h3, ih]

theorem validateGo_le (hs : List Heading) (last : Nat) :
    List.Forall₂ (fun a b => levelToNat a.level ≤ levelToNat b.level)
      (validateGo last hs) hs := by
  induction hs generalizing last with
  | nil => exact List.Forall₂.nil
  | cons h hs ih =>
    refine List.Forall₂.cons ?_ (ih _)
    rw [validateStep_level]
    exact hierStep_le_self _ _

theorem hierLevels_head_le (last : Nat) (ns : List Nat) :
    ∀ c ∈ (hierLevels last ns).head?, c ≤ last + 1 := by
  cases ns with
  | nil => intro c hc; simp [hierLevels] at hc
  | cons n ns =>
    intro c hc
    simp only [hierLevels, List.head?_cons, Option.mem_def, Option.some.injEq] at hc
    subst hc
    exact hierStep_le_succ _ _

theorem hierLevels_chain (last : Nat) (ns : List Nat) :
    List.Chain' (fun a b => b ≤ a + 1) (hierLevels last ns) := by
  induction ns generalizing last with
  | nil => exact List.chain'_nil
  | cons n ns ih =>
    simp only [hierLevels]
    rw [List.chain'_cons']
    exact ⟨fun b hb => hierLevels_head_le _ _ b hb, ih _⟩

/-- C1 counterexample: on input [H1, H3] the validator rewrites the second
    heading from level 3 to level 2 — a numerically *smaller* (shallower)
    level — so the claim that no heading is ever moved to a numerically
    smaller level is false on the code. -/
theorem c1_validate_shallower_counterexample :
    validate_hierarchy
        [⟨"H1", "a", 0, ""⟩, ⟨"H3", "b", 0, ""⟩] =
      [⟨"H1", "a", 0, ""⟩, ⟨"H2", "b", 0, ""⟩] ∧
      levelToNat "H2" < levelToNat "H3" := by
  constructor
  · rfl
  · decide

/-- C1 (amended): `validate_hierarchy` performs a single left-to-right pass
    with `last_level` initialised to 0, mapping each level label to an
    integer, clamping 4 to 3 and demoting a skip to `last_level + 1`
    (formalised by the integer trace `hierLevels 0`); all other heading
    fields are preserved; no heading is ever moved to a numerically
    *larger* (deeper) level; and in the output every adjacent pair
    satisfies depth(h[i+1]) ≤ depth(h[i]) + 1. -/
theorem c1_validate_hierarchy_amended (hs : List Heading) :
    ((validate_hierarchy hs).map (fun h => levelToNat h.level) =
        hierLevels 0 (hs.map (fun h => levelToNat h.level))) ∧
      ((validate_hierarchy hs).map (fun h => (h.text, h.page, h.content)) =
        hs.map (fun h => (h.text, h.page, h.content))) ∧
      List.Forall₂ (fun a b => levelToNat a.level ≤ levelToNat b.level)
        (validate_hierarchy hs) hs ∧
      List.Chain' (fun a b => levelToNat b.level ≤ levelToNat a.level + 1)
        (validate_hierarchy hs) := by
  refine ⟨validateGo_levels hs 0, validateGo_fields hs 0, validateGo_le hs 0, ?_⟩
  have hc := hierLevels_chain 0 (hs.map (fun h => levelToNat h.level))
  rw [← validateGo_levels hs 0] at hc
  exact (List.chain'_map (fun x : Heading => levelToNat x.level)).mp hc

/-! ## Idempotence of the validator (C9) -/

/-- A level trace on which the validator's pass is the identity:
    no level is 4 (no clamping) and no level skips (no demotion). -/
def noClampChain (last : Nat) : List Nat → Prop
  | [] => True
  | n :: ns => n ≠ 4 ∧ n ≤ last + 1 ∧ noClampChain n ns

theorem validateGo_id (hs : List Heading) (last : Nat)
    (h : noClampChain last (hs.map (fun h => levelToNat h.level))) :
    validateGo last hs = hs := by
  induction hs generalizing last with
  | nil => rfl
  | cons hd hs ih =>
    obtain ⟨h4, hle, hrest⟩ := h
    simp only at h4 hle hrest
    have hstep : validateStep last hd = (hd, levelToNat hd.level) := by
      unfold validateStep
      simp only [if_neg h4, if_neg (by omega : ¬ levelToNat hd.level > last + 1)]
    simp only [validateGo, hstep]
    rw [ih _ hrest]

theorem hierLevels_noClamp (ns : List Nat) (last : Nat)
    (hns : ∀ n ∈ ns, n ≤ 4) (hlast : last ≤ 3) :
    noClampChain last (hierLevels last ns) := by
  induction ns generalizing last with
  | nil => trivial
  | cons n ns ih =>
    have hn : n ≤ 4 := hns n (List.mem_cons_self n ns)
    have hcl : clamp4 n ≤ 3 := by unfold clamp4; split <;> omega
    have hc : hierStep last n ≤ 3 ∧ hierStep last n ≠ 4 := by
      unfold hierStep
      split <;> omega
    refine ⟨hc.2, hierStep_le_succ _ _, ?_⟩
    exact ih _ (fun m hm => hns m (List.mem_cons_of_mem n hm)) hc.1

/-- C9 counterexample: on input [H1, H2, H3, H5] the first pass produces
    [H1, H2, H3, H4] and the second pass clamps the H4 to H3, so
    `validate_hierarchy` is not idempotent on all heading lists. -/
theorem c9_idempotence_counterexample :
    validate_hierarchy (validate_hierarchy
        [⟨"H1", "a", 0, ""⟩, ⟨"H2", "b", 0, ""⟩, ⟨"H3", "c", 0, ""⟩, ⟨"H5", "d", 0, ""⟩]) ≠
      validate_hierarchy
        [⟨"H1", "a", 0, ""⟩, ⟨"H2", "b", 0, ""⟩, ⟨"H3", "c", 0, ""⟩, ⟨"H5", "d", 0, ""⟩] := by
  decide

/-- C9 (amended): `validate_hierarchy` is idempotent on every heading list
    whose levels are all at most 4 — in particular on every list the
    pipeline itself produces, whose levels are H1–H3. -/
theorem c9_validate_hierarchy_idempotent (hs : List Heading)
    (h : ∀ hh ∈ hs, levelToNat hh.level ≤ 4) :
    validate_hierarchy (validate_hierarchy hs) = validate_hierarchy hs := by
  unfold validate_hierarchy
  apply validateGo_id
  rw [validateGo_levels]
  apply hierLevels_noClamp
  · intro n hn
    rw [List.mem_map] at hn
    obtain ⟨hh, hmem, heq⟩ := hn
    rw [← heq]
    exact h hh hmem
  · omega

/-- Witness for C9's amended theorem at a concrete input. -/
theorem c9_validate_hierarchy_idempotent_witness :
    (∀ hh ∈ [Heading.mk "H2" "a" 0 "", Heading.mk "H3" "b" 0 ""],
        levelToNat hh.level ≤ 4) ∧
      validate_hierarchy (validate_hierarchy
          [Heading.mk "H2" "a" 0 "", Heading.mk "H3" "b" 0 ""]) =
        validate_hierarchy [Heading.mk "H2" "a" 0 "", Heading.mk "H3" "b" 0 ""] :=
  ⟨by decide, c9_validate_hierarchy_idempotent _ (by decide)⟩

/-! ## Exact rational arithmetic

The source's Python floats are modelled by exact rational arithmetic.
Fractions are kept unreduced (denominators stay positive by
construction), so every operation is a plain integer computation that
the kernel can evaluate. -/

/-- An exact rational number as an unreduced fraction. -/
structure Q where
  num : Int
  den : Int
deriving DecidableEq, Repr

instance (n : Nat) : OfNat Q n := ⟨⟨Int.ofNat n, 1⟩⟩

/-- Embedding of a natural number count into the rationals. -/
def Q.ofNat (n : Nat) : Q := ⟨Int.ofNat n, 1⟩

instance : Add Q := ⟨fun a b => ⟨a.num * b.den + b.num * a.den, a.den * b.den⟩⟩

instance : Sub Q := ⟨fun a b => ⟨a.num * b.den - b.num * a.den, a.den * b.den⟩⟩

instance : Mul Q := ⟨fun a b => ⟨a.num * b.num, a.den * b.den⟩⟩

instance : Neg Q := ⟨fun a => ⟨-a.num, a.den⟩⟩

/-- Reciprocal, with the sign moved into the numerator; `inv 0 = 0`. -/
def Q.inv (a : Q) : Q :=
  if a.num > 0 then ⟨a.den, a.num⟩
  else if a.num < 0 then ⟨-a.den, -a.num⟩
  else ⟨0, 1⟩

instance : Div Q := ⟨fun a b => a * Q.inv b⟩

instance : Zero Q := ⟨⟨0, 1⟩⟩

/-- Order by cross multiplication (denominators are positive by construction). -/
def Q.lt (a b : Q) : Prop := a.num * b.den < b.num * a.den

/-- Order by cross multiplication (denominators are positive by construction). -/
def Q.le (a b : Q) : Prop := a.num * b.den ≤ b.num * a.den

instance : LT Q := ⟨Q.lt⟩

instance : LE Q := ⟨Q.le⟩

instance (a b : Q) : Decidable (a < b) :=
  inferInstanceAs (Decidable (a.num * b.den < b.num * a.den))

instance (a b : Q) : Decidable (a ≤ b) :=
  inferInstanceAs (Decidable (a.num * b.den ≤ b.num * a.den))

theorem Q.not_lt_iff (a b : Q) : ¬ a < b ↔ b ≤ a := by
  show ¬ Q.lt a b ↔ Q.le b a
  unfold Q.lt Q.le
  exact Int.not_lt

theorem Q.le_def (a b : Q) : (a ≤ b) = (a.num * b.den ≤ b.num * a.den) := rfl

theorem Q.lt_def (a b : Q) : (a < b) = (a.num * b.den < b.num * a.den) := rfl

theorem Q.ofNat_num (n : Nat) : (Q.ofNat n).num = Int.ofNat n := rfl

theorem Q.ofNat_den (n : Nat) : (Q.ofNat n).den = 1 := rfl

theorem Q.mul_num (a b : Q) : (a * b).num = a.num * b.num := rfl

theorem Q.mul_den (a b : Q) : (a * b).den = a.den * b.den := rfl

theorem Q.half_num : ((1 : Q)/2).num = 1 := rfl

theorem Q.half_den : ((1 : Q)/2).den = 2 := rfl

/-- Python `abs` on rationals. -/
def Qabs (a : Q) : Q := ⟨|a.num|, a.den⟩

/-- Python `max` on rationals. -/
def Qmax (a b : Q) : Q := if a < b then b else a

/-! ## Geometric text blocks (the PyMuPDF/OCR block dictionaries) -/

/-- A bounding box (x0, y0, x1, y1) in page units. -/
structure BBox where
  x0 : Q
  y0 : Q
  x1 : Q
  y1 : Q
deriving DecidableEq, Repr

/-- A span: a run of same-styled text. -/
structure SpanB where
  text : String
  size : Q
  font : String
deriving DecidableEq, Repr

/-- A line: spans plus a bounding box. -/
structure LineB where
  spans : List SpanB
  bbox : BBox
deriving DecidableEq, Repr

/-- Block origin tag. -/
inductive Src where
  | pymupdf
  | ocr
deriving DecidableEq, Repr

/-- A text block as produced by `extract_text_blocks` (all annotation
    fields present and total). -/
structure Block where
  btype : Nat
  lines : List LineB
  bbox : BBox
  page_num : Nat
  source : Src
  page_height : Q
  page_width : Q
deriving DecidableEq, Repr

/-- All spans of a block, in order. -/
def blockSpans (b : Block) : List SpanB := (b.lines.map (fun l => l.spans)).flatten

/-- Python `"".join(span['text'] for line in lines for span in spans)`. -/
def rawConcatText (b : Block) : List Char :=
  ((blockSpans b).map (fun s => s.text.data)).flatten

/-- The `.strip()`ped concatenated block text used by the classifiers. -/
def concatStripText (b : Block) : List Char := pyStripL (rawConcatText b)

/-- Word count of the block's stripped concatenated text. -/
def wordCountOf (b : Block) : Nat := (pySplit (concatStripText b)).length

/-- Total number of spans in a block
    (`sum(len(line['spans']) for line in block['lines'])`). -/
def totalSpans (b : Block) : Nat := (b.lines.map (fun l => l.spans.length)).sum

/-- Sum of all span font sizes in a block. -/
def sumSizes (b : Block) : Q := ((blockSpans b).map (fun s => s.size)).sum

/-- Average span font size of a block (the souce computes
    `sum(sizes) / len(spans)`; a zero span count raises in Python and the
    callers catch it, which is modelled at each call site). -/
def avgFontSize (b : Block) : Q := sumSizes b / Q.ofNat (totalSpans b)

/-- `any('bold' in s.get('font','').lower() for ... spans)`. -/
def isBoldBlock (b : Block) : Bool :=
  (blockSpans b).any (fun s => containsSub "bold".data (pyLower s.font.data))

/-- Document-level statistics. -/
structure DocStats where
  median_size : Q
deriving DecidableEq, Repr

/-- `get_document_stats` (source lines 203-215): median of all non-OCR
    span sizes (`sorted(sizes)[len(sizes) // 2]`), default 12.0. -/
def get_document_stats (blocks : List Block) : DocStats :=
  let font_sizes :=
    ((blocks.filter (fun b => !(b.source == Src.ocr))).map
      (fun b => (blockSpans b).map (fun s => s.size))).flatten
  if font_sizes.isEmpty then ⟨12⟩
  else ⟨(font_sizes.mergeSort (fun a b => decide (a ≤ b))).getD
          (font_sizes.length / 2) 0⟩

/-- Positive inter-line gaps within one block
    (`lines[i+1].top - lines[i].bottom` when positive). -/
def lineSpacings (b : Block) : List Q :=
  (b.lines.zip b.lines.tail).filterMap
    (fun p => let sp := p.2.bbox.y0 - p.1.bbox.y1
              if sp > 0 then some sp else none)

/-- `calculate_average_line_spacing` (source lines 443-461). -/
def calculate_average_line_spacing (blocks : List Block) : Q :=
  let spacings := ((blocks.filter (fun b => !(b.source == Src.ocr))).map lineSpacings).flatten
  if spacings.isEmpty then 12
  else spacings.sum / Q.ofNat spacings.length

/-! ## Pattern helpers for the classifier regexes -/

/-- Regex `^\d+\.\s+[A-Z][a-z]` (form-field label pattern). -/
def formFieldPat (l : List Char) : Bool :=
  let p := l.span Char.isDigit
  !p.1.isEmpty &&
    (match p.2 with
     | '.' :: r2 =>
       let q := r2.span pyIsSpace
       !q.1.isEmpty &&
         (match q.2 with
          | a :: b :: _ => ('A' ≤ a && a ≤ 'Z') && ('a' ≤ b && b ≤ 'z')
          | _ => false)
     | _ => false)

/-- Regex `^\d+\.` (leading numbered-item pattern). -/
def leadingNumDotPat (l : List Char) : Bool :=
  let p := l.span Char.isDigit
  !p.1.isEmpty && (match p.2 with | '.' :: _ => true | _ => false)

/-- Regex search `[\.]{3,}\s+\d+$` (dotted table-of-contents leader). -/
def tocDotsPat (l : List Char) : Bool :=
  let r := l.reverse
  let p := r.span Char.isDigit
  let q := p.2.span pyIsSpace
  let d := q.2.span (fun c => c = '.')
  !p.1.isEmpty && !q.1.isEmpty && d.1.length ≥ 3

/-- Regex search `\s+\d+$` (trailing page number). -/
def endsWsDigitsPat (l : List Char) : Bool :=
  let r := l.reverse
  let p := r.span Char.isDigit
  let q := p.2.span pyIsSpace
  !p.1.isEmpty && !q.1.isEmpty

/-- The form-field keyword list from `is_table_block`. -/
def form_keywords : List String :=
  ["name", "designation", "pay", "permanent", "temporary", "home town",
   "service book", "advance required", "government servant", "amount"]

/-- `is_table_block` (source lines 463-543). -/
def is_table_block (block : Block) (blocks : List Block) (doc_stats : DocStats) : Bool :=
  if block.source == Src.ocr then false
  else
    let text := concatStripText block
    if formFieldPat text then true
    else if (form_keywords.any (fun k => containsSub k.data (pyLower text))) &&
            leadingNumDotPat (pyStripL text) then true
    else if text.length < 30 then
      let x0 := block.bbox.x0
      let y0 := block.bbox.y0
      let pw := block.page_width
      if x0 > pw * (1/5) then true
      else
        let avg_spacing := calculate_average_line_spacing blocks
        let adjacent := blocks.filter
          (fun ob => !(ob == block) && !(ob.source == Src.ocr) &&
                     decide (Qabs (ob.bbox.y0 - y0) < avg_spacing * 2))
        if !adjacent.isEmpty &&
           decide (Qabs (x0 - (adjacent.map (fun b => b.bbox.x0)).sum / Q.ofNat adjacent.length) >
                     pw * (1/10)) then true
        else
          (block.lines.zip block.lines.tail).any
            (fun p => decide (p.2.bbox.y0 - p.1.bbox.y1 < avg_spacing * (4/5)))
    else false

/-! ## Title-block detection (`is_title_block`, source lines 314-334) -/

/-- Python `' '.join(text.split())` (whitespace normalisation). -/
def pyNormWsJoin (l : List Char) : List Char :=
  match pySplit l with
  | [] => []
  | w :: ws => w ++ (ws.map (fun x => ' ' :: x)).flatten

/-- Distinct lowercased words of the title (`set(title.lower().split())`). -/
def titleWords (title : String) : List (List Char) :=
  (pySplit (pyLower title.data)).dedup

/-- Number of distinct title words present in the block
    (`len(title_words.intersection(block_words))`). -/
def titleOverlap (title : String) (b : Block) : Nat :=
  let block_text := pyNormWsJoin (pyStripL (rawConcatText b))
  let block_words := pySplit (pyLower block_text)
  ((titleWords title).filter (fun w => block_words.contains w)).length

/-- `is_title_block`: more than 70% of the title's distinct words occur
    in the block. -/
def is_title_block (block : Block) (title : String) : Bool :=
  if title.data.isEmpty then false
  else
    if (titleWords title).length ≠ 0 then
      decide (Q.ofNat (titleOverlap title block) / Q.ofNat (titleWords title).length > 7/10)
    else false

/-! ## Numbered-heading classifier (source lines 336-358) -/

/-- Greedy parse of `(\.\d+)*` continuation groups of the numeral. -/
def parseNumTail : Nat → List Char → (List Char × List Char)
  | 0, l => ([], l)
  | f + 1, l =>
    match l with
    | '.' :: r =>
      let p := r.span Char.isDigit
      if p.1.isEmpty then ([], '.' :: r)
      else
        let q := parseNumTail f p.2
        ('.' :: (p.1 ++ q.1), q.2)
    | _ => ([], l)

/-- Greedy parse of the numeral group `\d+(\.\d+)*`. -/
def parseNumerals (l : List Char) : Option (List Char × List Char) :=
  let p := l.span Char.isDigit
  if p.1.isEmpty then none
  else
    let q := parseNumTail p.2.length p.2
    some (p.1 ++ q.1, q.2)

/-- The tail alternation `(?:\s+\d+\.\d+|\s+\d+$|$)` of the
    numbered-heading regex, checked at a given position. -/
def tailAltFull (l : List Char) : Bool :=
  l.isEmpty ||
  (let p := l.span pyIsSpace
   !p.1.isEmpty &&
     (let q := p.2.span Char.isDigit
      !q.1.isEmpty &&
        (q.2.isEmpty ||
         (match q.2 with
          | '.' :: r3 => !(r3.span Char.isDigit).1.isEmpty
          | _ => false))))

/-- Lazy extension of the non-greedy group `[^0-9]+?`: grow the group one
    non-digit character at a time until the tail alternation matches. -/
def searchG3 (tc : List Char → Bool) : List Char → List Char → Option (List Char)
  | _, [] => none
  | acc, c :: r =>
    if c.isDigit then none
    else if tc r then some ((c :: acc).reverse)
    else searchG3 tc (c :: acc) r

/-- Backtracking of the greedy `\s+` against the lazy group: try giving
    `\s+` j whitespace characters for j from the maximum down to 1. -/
def jLoopG3 (tc : List Char → Bool) (wsChars afterWs : List Char) : Nat → Option (List Char)
  | 0 => none
  | j + 1 =>
    match searchG3 tc [] (wsChars.drop (j + 1) ++ afterWs) with
    | some g => some g
    | none => jLoopG3 tc wsChars afterWs j

/-- Python `re.match(r'^\s*(\d+(\.\d+)*)\.?\s+([^0-9]+?)(?:\s+\d+\.\d+|\s+\d+$|$)', s)`,
    returning (group 1, group 3) on success.  The greedy parts are
    deterministic here because `\s`, `\d` and `.` are disjoint character
    classes; the only live backtracking — between the greedy `\s+` and the
    lazy `[^0-9]+?` — is played out by `jLoopG3`/`searchG3` in the regex
    engine's preference order. -/
def matchNumbered (s : List Char) : Option (List Char × List Char) :=
  let s1 := s.dropWhile pyIsSpace
  match parseNumerals s1 with
  | none => none
  | some (num, rest) =>
    let rest2 := match rest with
                 | '.' :: r => r
                 | _ => rest
    let p := rest2.span pyIsSpace
    if p.1.isEmpty then none
    else
      match jLoopG3 tailAltFull p.1 p.2 p.1.length with
      | some g3 => some (num, g3)
      | none => none

/-- `classify_numbered_heading` (source lines 336-358). -/
def classify_numbered_heading (block : Block) (blocks : Option (List Block))
    (doc_stats : Option DocStats) : Option String :=
  if (match blocks, doc_stats with
      | some bs, some st => is_table_block block bs st
      | _, _ => false) then none
  else
    match matchNumbered (concatStripText block) with
    | some (num_str, remaining_text) =>
      if (pySplit remaining_text).length < 2 ∧ remaining_text.length < 15 then none
      else
        let level := (num_str.filter (fun c => c = '.')).length + 1
        if 1 ≤ level ∧ level ≤ 3 then some (natToLevel level) else none
    | none => none

/-! ## Styled-heading classifier (source lines 360-397) -/

/-- Bounding-box area of a block. -/
def blockArea (b : Block) : Q :=
  (b.bbox.x1 - b.bbox.x0) * (b.bbox.y1 - b.bbox.y0)

/-- `classify_styled_heading` (source lines 360-397). -/
def classify_styled_heading (block : Block) (doc_stats : DocStats)
    (blocks : Option (List Block)) : Option String :=
  if (match blocks with
      | some bs => is_table_block block bs doc_stats
      | none => false) then none
  else
    let text := concatStripText block
    let word_count := (pySplit text).length
    if ¬(1 ≤ word_count ∧ word_count < 30) ∨ pyEndsWithAny text ['.', ':', ','] then none
    else if tocDotsPat text ∨ (endsWsDigitsPat text ∧ word_count > 5) then none
    else
      match block.source with
      | Src.ocr =>
        if blockArea block > 50000 ∧ word_count < 10 then some "H1" else none
      | Src.pymupdf =>
        if totalSpans block = 0 then none
        else
          let avg_font_size := avgFontSize block
          let is_bold := isBoldBlock block
          let median_size := doc_stats.median_size
          if avg_font_size > median_size * (7/5) ∧ (is_bold ∨ pyIsUpper text) then some "H1"
          else if avg_font_size > median_size * (5/4) ∧ (is_bold ∨ pyIsUpper text) then some "H2"
          else if (avg_font_size > median_size * (23/20) ∧ is_bold) ∨
                  (avg_font_size > median_size * (6/5) ∧ pyIsTitle text) then some "H3"
          else none

/-! ## Header/footer filter (`filter_headers_footers`, source lines 399-441) -/

/-- Position key: header band (top 15%) or footer band (bottom 15%). -/
inductive HFKey where
  | header
  | footer
deriving DecidableEq, Repr

/-- The normalised block text used by the header/footer pass
    (`"".join(...).strip().lower()`). -/
def hfNormText (b : Block) : List Char := pyLower (concatStripText b)

/-- The position key of a block (`"header" if y0 < 0.15*h else "footer" if
    y0 > 0.85*h else None`). -/
def posKeyOf (b : Block) : Option HFKey :=
  if b.bbox.y0 < b.page_height * (3/20) then some HFKey.header
  else if b.bbox.y0 > b.page_height * (17/20) then some HFKey.footer
  else none

/-- Counting guard of the header/footer pass: text length in (2, 80) and
    not pure digits. -/
def hfQualifies (b : Block) : Bool :=
  decide (2 < (hfNormText b).length ∧ (hfNormText b).length < 80) &&
    !pyIsDigitStr (hfNormText b)

/-- The large-font protection applied while *counting* candidate
    header/footer text: non-OCR, a nonzero span count (a zero count raises
    `ZeroDivisionError`, which the source swallows, leaving the block
    unprotected), and average size above 1.2× the median. -/
def hfProtected (b : Block) (st : DocStats) : Bool :=
  !(b.source == Src.ocr) && !(totalSpans b == 0) &&
    decide (avgFontSize b > st.median_size * (6/5))

/-- The (text, position) pairs contributed to `potential_hf`, in block order. -/
def hfContribs (blocks : List Block) (st : DocStats) : List (List Char × HFKey) :=
  blocks.filterMap (fun b =>
    if !(hfQualifies b) then none
    else if hfProtected b st then none
    else match posKeyOf b with
         | some k => some (hfNormText b, k)
         | none => none)

/-- `potential_hf[key]`: the multiplicity of a (text, position) pair. -/
def hfCount (blocks : List Block) (st : DocStats) (key : List Char × HFKey) : Nat :=
  ((hfContribs blocks st).filter (fun x => x == key)).length

/-- A boilerplate signature: a pair occurring at least `num_pages * 0.5` times. -/
def hfIsSignature (blocks : List Block) (st : DocStats) (num_pages : Nat)
    (key : List Char × HFKey) : Bool :=
  decide (Q.ofNat (hfCount blocks st key) ≥ Q.ofNat num_pages * (1/2))

/-- `filter_headers_footers` (source lines 399-441). -/
def filter_headers_footers (blocks : List Block) (num_pages : Nat)
    (doc_stats : DocStats) : List Block :=
  if num_pages < 3 then blocks
  else blocks.filter (fun b =>
    match posKeyOf b with
    | none => true
    | some k => !hfIsSignature blocks doc_stats num_pages (hfNormText b, k))

/-- `remove_headers_footers_tables` (source lines 545-565). -/
def remove_headers_footers_tables (blocks : List Block) (num_pages : Nat)
    (doc_stats : DocStats) : List Block :=
  if num_pages < 3 then
    blocks.filter (fun b => !is_table_block b blocks doc_stats)
  else
    (filter_headers_footers blocks num_pages doc_stats).filter
      (fun b => !is_table_block b blocks doc_stats)

/-! ## Heading text cleaning (`clean_heading_text`, source lines 567-597) -/

/-- One application of `re.sub(r'\s+\d+\s*$', '', text)`: strip a single
    trailing run of whitespace + digits (+ trailing whitespace). -/
def stripTrailingNumber (l : List Char) : List Char :=
  let r := l.reverse
  let a := r.span pyIsSpace
  let b := a.2.span Char.isDigit
  let c := b.2.span pyIsSpace
  if !b.1.isEmpty && !c.1.isEmpty then c.2.reverse else l

/-- Python `text.rstrip('.,:;')`. -/
def rstripPunct (l : List Char) : List Char :=
  (l.reverse.dropWhile (fun c => c = '.' || c = ',' || c = ':' || c = ';')).reverse

/-- `re.sub(r'^\d+\.\s*', '', text)`: strip a leading numbered prefix. -/
def stripLeadingNumDot (l : List Char) : List Char :=
  let a := l.span Char.isDigit
  if a.1.isEmpty then l
  else match a.2 with
       | '.' :: r => r.dropWhile pyIsSpace
       | _ => l

/-- `re.sub(r'\s+-\s*$', '', text)`: strip a trailing dash. -/
def stripTrailingDash (l : List Char) : List Char :=
  let r := l.reverse
  let a := r.span pyIsSpace
  match a.2 with
  | '-' :: r2 =>
    let b := r2.span pyIsSpace
    if b.1.isEmpty then l else b.2.reverse
  | _ => l

/-- The tail alternation `(?:\s+\d+\.\d+|\s+\d+$)` (no empty alternative)
    of the concatenation-repair regex. -/
def tailAltNoEnd (l : List Char) : Bool :=
  let p := l.span pyIsSpace
  !p.1.isEmpty &&
    (let q := p.2.span Char.isDigit
     !q.1.isEmpty &&
       (q.2.isEmpty ||
        (match q.2 with
         | '.' :: r3 => !(r3.span Char.isDigit).1.isEmpty
         | _ => false)))

/-- Variant of `jLoopG3` that also reports how many whitespace characters
    the greedy `\s+` kept (needed to reconstruct group 1). -/
def jLoopG3J (tc : List Char → Bool) (wsChars afterWs : List Char) :
    Nat → Option (Nat × List Char)
  | 0 => none
  | j + 1 =>
    match searchG3 tc [] (wsChars.drop (j + 1) ++ afterWs) with
    | some g => some (j + 1, g)
    | none => jLoopG3J tc wsChars afterWs j

/-- Python `re.match(r'^(\d+\.\d+\s+[^0-9]+?)(?:\s+\d+\.\d+|\s+\d+$)', s)`,
    returning group 1 on success (the repair for merged numbered headings). -/
def repairMatch (l : List Char) : Option (List Char) :=
  let a := l.span Char.isDigit
  if a.1.isEmpty then none
  else match a.2 with
    | '.' :: r =>
      let b := r.span Char.isDigit
      if b.1.isEmpty then none
      else
        let p := b.2.span pyIsSpace
        if p.1.isEmpty then none
        else
          match jLoopG3J tailAltNoEnd p.1 p.2 p.1.length with
          | some jg => some (a.1 ++ '.' :: b.1 ++ p.1.take jg.1 ++ jg.2)
          | none => none
    | _ => none

/-- `re.sub(r'\s+', ' ', text)`: collapse each whitespace run to one space. -/
def collapseWsGo (prevSpace : Bool) : List Char → List Char
  | [] => []
  | c :: r =>
    if pyIsSpace c then
      if prevSpace then collapseWsGo true r else ' ' :: collapseWsGo true r
    else c :: collapseWsGo false r

/-- `re.sub(r'\s+', ' ', text)` from the start of the string. -/
def collapseWs (l : List Char) : List Char := collapseWsGo false l

/-- `clean_heading_text` (source lines 567-597). -/
def clean_heading_text (text : String) : String :=
  let t1 := stripTrailingNumber text.data
  let t2 := pyNormWsJoin t1
  let t3 := rstripPunct t2
  let t4 := stripLeadingNumDot t3
  let t5 := stripTrailingDash t4
  let t6 := match repairMatch t5 with
            | some g1 => pyStripL g1
            | none => t5
  let t7 := stripTrailingNumber t6
  let t8 := collapseWs t7
  ⟨pyStripL t8⟩

/-! ## C3: the numbered-heading rule -/

theorem totalSpans_eq_length (b : Block) : totalSpans b = (blockSpans b).length := by
  unfold totalSpans blockSpans
  rw [List.length_flatten, List.map_map]
  rfl

theorem wordCount_pos_totalSpans (b : Block) (h : 1 ≤ wordCountOf b) :
    totalSpans b ≠ 0 := by
  intro hz
  rw [totalSpans_eq_length] at hz
  have hbs : blockSpans b = [] := List.length_eq_zero.mp hz
  have hraw : rawConcatText b = [] := by
    unfold rawConcatText
    rw [hbs]
    rfl
  have hstrip : concatStripText b = [] := by
    unfold concatStripText
    rw [hraw]
    rfl
  unfold wordCountOf at h
  rw [hstrip] at h
  simp [pySplit, pySplitAux] at h

/-- C3: for a non-tabular block whose stripped concatenated text matches
    the leading hierarchical numeral pattern with numeral `num` and label
    `label`, `classify_numbered_heading` rejects a label that is under 2
    words and under 15 characters, and otherwise returns
    H(dots(num) + 1), accepting only levels up to 3. -/
theorem c3_classify_numbered_heading (b : Block) (bs : List Block) (st : DocStats)
    (num label : List Char)
    (htab : is_table_block b bs st = false)
    (hmatch : matchNumbered (concatStripText b) = some (num, label)) :
    classify_numbered_heading b (some bs) (some st) =
      (if (pySplit label).length < 2 ∧ label.length < 15 then none
       else if (num.filter (fun c => c = '.')).length + 1 ≤ 3 then
         some (natToLevel ((num.filter (fun c => c = '.')).length + 1))
       else none) := by
  simp only [classify_numbered_heading, htab, Bool.false_eq_true, if_false, hmatch]
  by_cases h1 : (pySplit label).length < 2 ∧ label.length < 15
  · simp [h1]
  · have htriv : 1 ≤ (num.filter (fun c => c = '.')).length + 1 := by omega
    by_cases h2 : (num.filter (fun c => c = '.')).length + 1 ≤ 3
    · simp [h1, h2, htriv]
    · simp [h1, h2]

/-- Concrete block for the C3 witness: text "2.1 Intended Audience". -/
def c3block : Block :=
  { btype := 0
    lines := [⟨[⟨"2.1 Intended Audience", 12, "Regular"⟩], ⟨50, 100, 300, 112⟩⟩]
    bbox := ⟨50, 100, 300, 112⟩
    page_num := 0
    source := Src.pymupdf
    page_height := 842
    page_width := 595 }

/-- Witness for C3 at the block "2.1 Intended Audience" (level H2). -/
theorem c3_classify_numbered_heading_witness :
    (is_table_block c3block [c3block] ⟨12⟩ = false) ∧
      (matchNumbered (concatStripText c3block) =
        some ("2.1".data, "Intended Audience".data)) ∧
      classify_numbered_heading c3block (some [c3block]) (some ⟨12⟩) =
        (if (pySplit "Intended Audience".data).length < 2 ∧
            "Intended Audience".data.length < 15 then none
         else if ("2.1".data.filter (fun c => c = '.')).length + 1 ≤ 3 then
           some (natToLevel (("2.1".data.filter (fun c => c = '.')).length + 1))
         else none) :=
  ⟨by decide, by decide,
    c3_classify_numbered_heading c3block [c3block] ⟨12⟩ _ _ (by decide) (by decide)⟩

/-! ## C2: the styled-heading rule -/

/-- The styled-heading classification as the spec words it: for OCR blocks
    H1 exactly on large area with under 10 words; for native blocks the
    1.4× / 1.25× / 1.15× / 1.2× threshold cascade. -/
def styledHeadingSpec (b : Block) (st : DocStats) : Option String :=
  match b.source with
  | Src.ocr =>
    if blockArea b > 50000 ∧ wordCountOf b < 10 then some "H1" else none
  | Src.pymupdf =>
    if avgFontSize b > st.median_size * (7/5) ∧
        (isBoldBlock b ∨ pyIsUpper (concatStripText b)) then some "H1"
    else if avgFontSize b > st.median_size * (5/4) ∧
        (isBoldBlock b ∨ pyIsUpper (concatStripText b)) then some "H2"
    else if (avgFontSize b > st.median_size * (23/20) ∧ isBoldBlock b) ∨
        (avgFontSize b > st.median_size * (6/5) ∧ pyIsTitle (concatStripText b)) then
      some "H3"
    else none

/-- C2 counterexample: an OCR block whose area exceeds 50000 and whose
    word count is under 10, but whose text ends in '.', is rejected by the
    word-count/punctuation preconditions before the OCR area rule runs —
    so "returns H1 iff area > threshold and word count < 10" fails for
    OCR blocks. -/
def c2ocrBlock : Block :=
  { btype := 0
    lines := [⟨[⟨"Big Poster Sale. ", 12, "OCR-Default"⟩], ⟨0, 0, 300, 200⟩⟩]
    bbox := ⟨0, 0, 300, 200⟩
    page_num := 0
    source := Src.ocr
    page_height := 842
    page_width := 595 }

theorem c2_styled_ocr_counterexample :
    c2ocrBlock.source = Src.ocr ∧ blockArea c2ocrBlock > 50000 ∧
      wordCountOf c2ocrBlock < 10 ∧
      classify_styled_heading c2ocrBlock ⟨12⟩ (some [c2ocrBlock]) = none := by
  refine ⟨rfl, by decide, by decide, by decide⟩

/-- C2 (amended): for every block passing the styled-heading
    preconditions (not tabular, word count in [1,30), text not ending in
    '.', ':' or ',', no table-of-contents pattern), the classifier computes
    exactly the spec's cascade: for OCR blocks H1 iff area > 50000 and
    word count < 10 (and never any other level); for native blocks H1/H2/H3
    by the 1.4×/1.25×/1.15×/1.2× thresholds with bold/all-caps/title-case. -/
theorem c2_classify_styled_heading_amended (b : Block) (bs : List Block) (st : DocStats)
    (htab : is_table_block b bs st = false)
    (hwc : 1 ≤ wordCountOf b ∧ wordCountOf b < 30)
    (hend : pyEndsWithAny (concatStripText b) ['.', ':', ','] = false)
    (htoc1 : tocDotsPat (concatStripText b) = false)
    (htoc2 : endsWsDigitsPat (concatStripText b) = false ∨ ¬(wordCountOf b > 5)) :
    classify_styled_heading b st (some bs) = styledHeadingSpec b st := by
  simp only [classify_styled_heading, styledHeadingSpec, htab,
    Bool.false_eq_true, if_false]
  rw [if_neg (by
    push_neg
    exact ⟨hwc, by simp [hend]⟩)]
  rw [if_neg (by
    rintro (hc | ⟨hc, hgt⟩)
    · rw [htoc1] at hc; exact Bool.false_ne_true hc
    · rcases htoc2 with h | h
      · rw [h] at hc; exact Bool.false_ne_true hc
      · exact h hgt)]
  cases hsrc : b.source with
  | ocr => rfl
  | pymupdf =>
    have hns : ¬ (totalSpans b = 0) := fun hz => wordCount_pos_totalSpans b hwc.1 hz
    simp [hns]

/-- Concrete native block for the C2 witness: "Overview Document", bold,
    size 20 against a median of 12 (classifies H1). -/
def c2nativeBlock : Block :=
  { btype := 0
    lines := [⟨[⟨"Overview Document", 20, "Arial-Bold"⟩], ⟨40, 50, 300, 74⟩⟩]
    bbox := ⟨40, 50, 300, 74⟩
    page_num := 0
    source := Src.pymupdf
    page_height := 842
    page_width := 595 }

/-- Witness for C2's amended theorem at a concrete native block. -/
theorem c2_classify_styled_heading_witness :
    (is_table_block c2nativeBlock [c2nativeBlock] ⟨12⟩ = false) ∧
      (1 ≤ wordCountOf c2nativeBlock ∧ wordCountOf c2nativeBlock < 30) ∧
      classify_styled_heading c2nativeBlock ⟨12⟩ (some [c2nativeBlock]) =
        styledHeadingSpec c2nativeBlock ⟨12⟩ :=
  ⟨by decide, by decide,
    c2_classify_styled_heading_amended c2nativeBlock [c2nativeBlock] ⟨12⟩
      (by decide) (by decide) (by decide) (by decide) (Or.inl (by decide))⟩

/-! ## C4: the header/footer large-font protection -/

/-- A block with the footer text "Repeat Footer", parameterised by font
    size and page. -/
def c4block (sz : Q) (pg : Nat) : Block :=
  { btype := 0
    lines := [⟨[⟨"Repeat Footer", sz, "Reg"⟩], ⟨10, 90, 200, 95⟩⟩]
    bbox := ⟨10, 90, 200, 95⟩
    page_num := pg
    source := Src.pymupdf
    page_height := 100
    page_width := 595 }

/-- Three small-font copies of the footer on pages 0-2, plus one
    large-font block with the same text and position. -/
def c4blocks : List Block := [c4block 12 0, c4block 12 1, c4block 12 2, c4block 30 1]

/-- C4 counterexample: the size-30 block is non-OCR with average font size
    30 > 1.2 × 12, yet `filter_headers_footers` drops it, because the
    font-size protection only exempts a block from being *counted*, not
    from being *removed* when other blocks establish the signature. -/
theorem c4_filter_protection_counterexample :
    c4block 30 1 ∈ c4blocks ∧ (c4block 30 1).source ≠ Src.ocr ∧
      avgFontSize (c4block 30 1) > (12 : Q) * (6/5) ∧
      c4block 30 1 ∉ filter_headers_footers c4blocks 3 ⟨12⟩ := by
  refine ⟨by decide, by decide, by decide, by decide⟩

theorem hfContribs_mem (blocks : List Block) (st : DocStats)
    (x : List Char × HFKey) (hx : x ∈ hfContribs blocks st) :
    ∃ c ∈ blocks, hfQualifies c = true ∧ hfProtected c st = false ∧
      posKeyOf c = some x.2 ∧ hfNormText c = x.1 := by
  unfold hfContribs at hx
  obtain ⟨c, hc, hfc⟩ := List.mem_filterMap.mp hx
  refine ⟨c, hc, ?_⟩
  by_cases hq : hfQualifies c
  · by_cases hp : hfProtected c st
    · simp [hq, hp] at hfc
    · cases hpk : posKeyOf c with
      | none => simp [hq, hp, hpk] at hfc
      | some k =>
        simp only [hq, Bool.not_true, Bool.false_eq_true, if_false,
          hp, hpk] at hfc
        cases hfc
        exact ⟨hq, Bool.not_eq_true _ ▸ (by simp [hp]), rfl, rfl⟩
  · simp [hq] at hfc

/-- C4 (amended): the 1.2×-median font protection exempts a block only
    from contributing to boilerplate signatures; a protected block is
    still dropped when unprotected blocks establish its signature.  In
    particular, when every counted block sharing the protected block's
    normalized text and position key is itself protected, the block is
    never dropped by the header/footer pass. -/
theorem c4_filter_protection_amended (blocks : List Block) (np : Nat) (st : DocStats)
    (b : Block) (hnp : 3 ≤ np) (hb : b ∈ blocks)
    (hprot : hfProtected b st = true)
    (hall : ∀ c ∈ blocks, hfQualifies c = true → hfNormText c = hfNormText b →
            posKeyOf c = posKeyOf b → hfProtected c st = true) :
    b ∈ filter_headers_footers blocks np st := by
  unfold filter_headers_footers
  rw [if_neg (by omega)]
  refine List.mem_filter.mpr ⟨hb, ?_⟩
  cases hpk : posKeyOf b with
  | none => rfl
  | some k =>
    simp only
    have hcount : hfCount blocks st (hfNormText b, k) = 0 := by
      unfold hfCount
      rw [List.length_eq_zero, List.filter_eq_nil_iff]
      intro x hx hbeq
      obtain ⟨c, hc, hq, hp, hpkc, htc⟩ := hfContribs_mem blocks st x hx
      have hxk : x = (hfNormText b, k) := by
        simpa using hbeq
      rw [hxk] at hpkc htc
      have := hall c hc hq htc (by rw [hpkc, hpk])
      rw [this] at hp
      exact Bool.noConfusion hp
    have hsig : hfIsSignature blocks st np (hfNormText b, k) = false := by
      unfold hfIsSignature
      rw [hcount]
      apply decide_eq_false
      intro hge
      have hle : Q.ofNat np * ((1 : Q) / 2) ≤ Q.ofNat 0 := hge
      rw [Q.le_def] at hle
      simp only [Q.mul_num, Q.mul_den, Q.ofNat_num, Q.ofNat_den,
        Q.half_num, Q.half_den, Int.ofNat_eq_coe] at hle
      omega
    rw [hsig]
    rfl

/-- Witness for C4's amended theorem: a lone protected footer block
    survives the pass. -/
theorem c4_filter_protection_witness :
    ((3 : Nat) ≤ 3) ∧ (c4block 30 1 ∈ [c4block 30 1]) ∧
      hfProtected (c4block 30 1) ⟨12⟩ = true ∧
      c4block 30 1 ∈ filter_headers_footers [c4block 30 1] 3 ⟨12⟩ :=
  ⟨le_refl 3, by decide, by decide,
    c4_filter_protection_amended [c4block 30 1] 3 ⟨12⟩ (c4block 30 1)
      (le_refl 3) (by decide) (by decide) (by decide)⟩

/-! ## C6: small documents skip the header/footer pass -/

/-- C6: for documents with fewer than 3 pages the combined filter removes
    exactly the tabular blocks — the header/footer pass is a no-op, and no
    non-tabular block is ever removed. -/
theorem c6_remove_hf_small_doc (blocks : List Block) (np : Nat) (st : DocStats)
    (hnp : np < 3) :
    remove_headers_footers_tables blocks np st =
        blocks.filter (fun b => !is_table_block b blocks st) ∧
      ∀ b ∈ blocks, is_table_block b blocks st = false →
        b ∈ remove_headers_footers_tables blocks np st := by
  constructor
  · unfold remove_headers_footers_tables
    rw [if_pos hnp]
  · intro b hb htab
    unfold remove_headers_footers_tables
    rw [if_pos hnp]
    exact List.mem_filter.mpr ⟨hb, by simp [htab]⟩

/-- Witness for C6 on a one-page document with a single plain block. -/
theorem c6_remove_hf_small_doc_witness :
    ((1 : Nat) < 3) ∧
      remove_headers_footers_tables [c2nativeBlock] 1 ⟨12⟩ =
        [c2nativeBlock].filter (fun b => !is_table_block b [c2nativeBlock] ⟨12⟩) :=
  ⟨by omega, (c6_remove_hf_small_doc [c2nativeBlock] 1 ⟨12⟩ (by omega)).1⟩

/-! ## Content associator (`associate_content_to_headings`, source lines 672-727) -/

/-- A heading as carried through classification and content association
    (the transient `y_pos` key still present). -/
structure PipeHeading where
  level : String
  text : String
  page : Nat
  y_pos : Q
  content : String
deriving DecidableEq, Repr

/-- Python `" ".join(pieces)`. -/
def joinSpace : List (List Char) → List Char
  | [] => []
  | w :: ws => w ++ (ws.map (fun x => ' ' :: x)).flatten

/-- The block text used for content: `" ".join(span texts).strip()`. -/
def blockSpacedText (b : Block) : List Char :=
  pyStripL (joinSpace ((blockSpans b).map (fun s => s.text.data)))

/-- `(block_page > start_page) or (block_page == start_page and block_y > start_y)`. -/
def isAfterStart (s p : Nat × Q) : Prop := p.1 > s.1 ∨ (p.1 = s.1 ∧ p.2 > s.2)

instance (s p : Nat × Q) : Decidable (isAfterStart s p) := by
  unfold isAfterStart
  infer_instance

/-- `(block_page < end_page) or (block_page == end_page and block_y < end_y)`,
    with the `float('inf')` bounds of the last heading modelled by `none`. -/
def isBeforeEnd (e : Option (Nat × Q)) (p : Nat × Q) : Prop :=
  match e with
  | none => True
  | some q => p.1 < q.1 ∨ (p.1 = q.1 ∧ p.2 < q.2)

instance (e : Option (Nat × Q)) (p : Nat × Q) : Decidable (isBeforeEnd e p) := by
  unfold isBeforeEnd
  cases e <;> infer_instance

/-- The nonempty texts of the paragraph blocks falling inside a heading's
    content window, in block order. -/
def windowTexts (paras : List Block) (cur : PipeHeading) (nxt : Option PipeHeading) :
    List String :=
  paras.filterMap (fun b =>
    if isAfterStart (cur.page, cur.y_pos) (b.page_num, b.bbox.y0) ∧
       isBeforeEnd (nxt.map (fun n => (n.page, n.y_pos))) (b.page_num, b.bbox.y0) then
      (if (blockSpacedText b).isEmpty then none else some (String.mk (blockSpacedText b)))
    else none)

/-- The loop of the associator: each heading's content window is bounded
    by the next heading in the list. -/
def associateGo (paras : List Block) : List PipeHeading → List PipeHeading
  | [] => []
  | h :: rest =>
    { h with content := String.intercalate "\n" (windowTexts paras h rest.head?) } ::
      associateGo paras rest

/-- The paragraph blocks: content blocks whose (page, y0) is not a heading
    position. -/
def paragraphBlocks (headings : List PipeHeading) (all_content_blocks : List Block) :
    List Block :=
  all_content_blocks.filter (fun b =>
    !((headings.map (fun h => (h.page, h.y_pos))).contains (b.page_num, b.bbox.y0)))

/-- `associate_content_to_headings` (source lines 672-727). -/
def associate_content_to_headings (headings : List PipeHeading)
    (all_content_blocks : List Block) : List PipeHeading :=
  if headings.isEmpty then []
  else associateGo (paragraphBlocks headings all_content_blocks) headings

theorem associateGo_length (paras : List Block) (hs : List PipeHeading) :
    (associateGo paras hs).length = hs.length := by
  induction hs with
  | nil => rfl
  | cons h rest ih => simp [associateGo, ih]

theorem associateGo_get (paras : List Block) (hs : List PipeHeading)
    (i : Nat) (hi : i < hs.length) (hi2 : i < (associateGo paras hs).length) :
    (associateGo paras hs).get ⟨i, hi2⟩ =
      { hs.get ⟨i, hi⟩ with
        content := String.intercalate "\n"
          (windowTexts paras (hs.get ⟨i, hi⟩) hs[i+1]?) } := by
  induction hs generalizing i with
  | nil => simp at hi
  | cons h rest ih =>
    cases i with
    | zero =>
      cases rest with
      | nil => simp [associateGo]
      | cons h2 t => simp [associateGo]
    | succ i =>
      have hi' : i < rest.length := Nat.lt_of_succ_lt_succ hi
      have hi2' : i < (associateGo paras rest).length := by
        rw [associateGo_length]
        exact hi'
      have hrec := ih i hi' hi2'
      simp only [associateGo, List.getElem?_cons_succ]
      exact hrec

/-- C7: for every heading list sorted by (page, y-position) and every
    filtered block list, the associator keeps exactly the input headings in
    order, assigning heading i the newline-joined texts of the non-heading
    blocks strictly between heading i's (page, y) and heading i+1's
    (or end of document for the last heading); a heading with no
    associated blocks keeps an empty content string and is never dropped. -/
theorem c7_associate_content (headings : List PipeHeading) (blocks : List Block)
    (hsorted : List.Pairwise
      (fun a b => a.page < b.page ∨ (a.page = b.page ∧ a.y_pos ≤ b.y_pos)) headings) :
    (associate_content_to_headings headings blocks).length = headings.length ∧
      ∀ i (hi : i < headings.length)
        (hi2 : i < (associate_content_to_headings headings blocks).length),
        (associate_content_to_headings headings blocks).get ⟨i, hi2⟩ =
          { headings.get ⟨i, hi⟩ with
            content := String.intercalate "\n"
              (windowTexts (paragraphBlocks headings blocks)
                (headings.get ⟨i, hi⟩) headings[i+1]?) } := by
  unfold associate_content_to_headings
  cases hempty : headings.isEmpty with
  | true =>
    have : headings = [] := List.isEmpty_iff.mp hempty
    subst this
    exact ⟨rfl, fun i hi => by simp at hi⟩
  | false =>
    simp only [Bool.false_eq_true, if_false]
    exact ⟨associateGo_length _ _, fun i hi hi2 => associateGo_get _ _ i hi hi2⟩

/-- Concrete data for the C7 witness: one heading and two blocks, one
    inside the window and one before it. -/
def c7heading : PipeHeading := ⟨"H1", "Intro", 0, 100, ""⟩

/-- A content block below the heading. -/
def c7blockIn : Block :=
  { btype := 0
    lines := [⟨[⟨"Body paragraph text", 12, "Reg"⟩], ⟨10, 200, 200, 215⟩⟩]
    bbox := ⟨10, 200, 200, 215⟩
    page_num := 0
    source := Src.pymupdf
    page_height := 842
    page_width := 595 }

/-- A block above the heading (outside its window). -/
def c7blockOut : Block :=
  { btype := 0
    lines := [⟨[⟨"Before the heading", 12, "Reg"⟩], ⟨10, 20, 200, 35⟩⟩]
    bbox := ⟨10, 20, 200, 35⟩
    page_num := 0
    source := Src.pymupdf
    page_height := 842
    page_width := 595 }

/-- Witness for C7 at a concrete one-heading, two-block instance. -/
theorem c7_associate_content_witness :
    (associate_content_to_headings [c7heading] [c7blockOut, c7blockIn]).length = 1 ∧
      (associate_content_to_headings [c7heading] [c7blockOut, c7blockIn]).get
          ⟨0, by decide⟩ =
        { c7heading with
          content := String.intercalate "\n"
            (windowTexts (paragraphBlocks [c7heading] [c7blockOut, c7blockIn])
              c7heading ([c7heading] : List PipeHeading)[1]?) } :=
  ⟨(c7_associate_content [c7heading] [c7blockOut, c7blockIn]
      (by simp)).1,
    (c7_associate_content [c7heading] [c7blockOut, c7blockIn]
      (by simp)).2 0 (by decide) (by decide)⟩

/-! ## Title extractor (`find_title`, source lines 217-312) -/

/-- A title candidate line. -/
structure TitleCand where
  text : List Char
  score : Nat
  y0 : Q
  size : Q
deriving DecidableEq, Repr

/-- Value equality on rationals (Python `==` on floats). -/
def Qeq (a b : Q) : Bool := a.num * b.den == b.num * a.den

/-- The per-line text of the title extractor:
    `" ".join(s['text'].strip() for s in line['spans'] if s['text'].strip()).strip()`. -/
def lineTitleText (l : LineB) : List Char :=
  pyStripL (joinSpace (l.spans.filterMap (fun s =>
    let t := pyStripL s.text.data
    if t.isEmpty then none else some t)))

/-- The blocks considered by the title extractor: page 0, type 0. -/
def firstPageBlocks (blocks : List Block) : List Block :=
  blocks.filter (fun b => b.page_num == 0 && b.btype == 0)

/-- All line texts of the first-page blocks, in order. -/
def titleLineTexts (blocks : List Block) : List (List Char) :=
  ((firstPageBlocks blocks).map (fun b => b.lines.map lineTitleText)).flatten

/-- One step of the special-case scan: remember the last eligible line
    containing 'rfp' and the last containing 'to present a proposal'
    (case-insensitively); lines that are empty or under 3 characters are
    skipped. -/
def rfpScanStep (acc : Option (List Char) × Option (List Char)) (t : List Char) :
    Option (List Char) × Option (List Char) :=
  if t.isEmpty || decide (t.length < 3) then acc
  else
    ((if containsSub "rfp".data (pyLower t) then some t else acc.1),
     (if containsSub "to present a proposal".data (pyLower t) then some t else acc.2))

/-- One case-insensitive repetition `RFP: ?` of the cleanup regex. -/
def rfpRep (l : List Char) : Option (List Char) :=
  match l with
  | a :: b :: c :: d :: rest =>
    if a.toLower = 'r' ∧ b.toLower = 'f' ∧ c.toLower = 'p' ∧ d = ':' then
      some (match rest with
            | ' ' :: r2 => r2
            | _ => rest)
    else none
  | _ => none

/-- Greedy `(RFP: ?)+`: the rest of the string after the maximal run. -/
def rfpRunEnd : Nat → List Char → Option (List Char)
  | 0, _ => none
  | f + 1, l =>
    match rfpRep l with
    | none => none
    | some rest =>
      match rfpRunEnd f rest with
      | some rest2 => some rest2
      | none => some rest

/-- `re.sub(r'(RFP: ?)+', 'RFP:', s, flags=re.I)`. -/
def subRfpRuns : Nat → List Char → List Char
  | 0, l => l
  | _ + 1, [] => []
  | f + 1, c :: r =>
    match rfpRunEnd (c :: r).length (c :: r) with
    | some rest => "RFP:".data ++ subRfpRuns f rest
    | none => c :: subRfpRuns f r

/-- Drop consecutive duplicate words, case-insensitively. -/
def dedupWords (ws : List (List Char)) : List (List Char) :=
  ws.foldl (fun acc w =>
    match acc.getLast? with
    | some prev => if pyLower w = pyLower prev then acc else acc ++ [w]
    | none => acc ++ [w]) []

/-- Does `(oposal ?)+` match this position exactly to the end of the
    string (case-sensitively)? -/
def oposalRun : Nat → List Char → Bool
  | 0, _ => false
  | f + 1, l =>
    "oposal".data.isPrefixOf l &&
      (let r := l.drop 6
       r.isEmpty || oposalRun f r ||
         (match r with
          | ' ' :: r2 => r2.isEmpty || oposalRun f r2
          | _ => false))

/-- `re.sub(r'(oposal ?)+$', 'oposal', s)`: leftmost end-anchored run. -/
def subOposalEnd : List Char → List Char
  | [] => []
  | c :: r =>
    if oposalRun (c :: r).length (c :: r) then "oposal".data
    else c :: subOposalEnd r

/-- `re.sub(r'RFP:$', '', s)`. -/
def stripTrailingRfpColon (l : List Char) : List Char :=
  if "RFP:".data.isSuffixOf l then l.take (l.length - 4) else l

/-- Python `str.replace('  ', ' ')`: one left-to-right non-overlapping pass. -/
def replaceDoubleSpace : Nat → List Char → List Char
  | 0, l => l
  | _ + 1, [] => []
  | f + 1, ' ' :: ' ' :: r => ' ' :: replaceDoubleSpace f r
  | f + 1, c :: r => c :: replaceDoubleSpace f r

/-- The RFP special case of `find_title` (source lines 241-257): clean the
    RFP line and concatenate the proposal line. -/
def buildRfpTitle (rfp prop : List Char) : String :=
  let s1 := subRfpRuns rfp.length rfp
  let s2 := joinSpace (dedupWords (pySplit s1))
  let s3 := subOposalEnd s2
  let s4 := pyStripL (stripTrailingRfpColon s3)
  let composed := s4 ++ ' ' :: prop
  ⟨pyStripL (replaceDoubleSpace composed.length composed)⟩

/-- The boilerplate keywords excluded from title candidacy. -/
def titleStopPhrases : List String :=
  ["date:", "time:", "address:", "tel:", "fax:", "version", "page", "confidential"]

/-- Regex `^[~\s]+`: the line starts with a tilde or whitespace. -/
def startsTildeWs (l : List Char) : Bool :=
  match l with
  | c :: _ => c = '~' || pyIsSpace c
  | [] => false

/-- Regex `^file\d+\.pdf$` on the lowered title. -/
def filenamePat (l : List Char) : Bool :=
  match l with
  | 'f' :: 'i' :: 'l' :: 'e' :: r =>
    let p := r.span Char.isDigit
    !p.1.isEmpty && p.2 == ".pdf".data
  | _ => false

/-- The scored candidate lines of the default title logic. -/
def titleCandidates (fpb : List Block) (max_font_size : Q) : List TitleCand :=
  ((fpb.filter (fun b => !decide (b.bbox.y0 > 400))).map (fun b =>
    b.lines.filterMap (fun line =>
      let text := lineTitleText line
      if text.isEmpty || decide (text.length < 3) then none
      else if titleStopPhrases.any (fun k => containsSub k.data (pyLower text)) then none
      else if startsTildeWs text || pyIsDigitStr text then none
      else
        let avg := if line.spans.isEmpty then 0
                   else (line.spans.map (fun s => s.size)).sum / Q.ofNat line.spans.length
        let score := (if avg ≥ max_font_size * (9/10) then 5
                      else if avg > max_font_size * (7/10) then 2 else 0)
                     + (if line.spans.any (fun s => containsSub "bold".data (pyLower s.font.data))
                        then 2 else 0)
                     + (if (pySplit text).length < 15 then 1 else 0)
        some ⟨text, score, line.bbox.y0, avg⟩))).flatten

/-- The stable descending sort by (score, -y0) of the candidate lines. -/
def candLE (a b : TitleCand) : Bool :=
  decide (a.score > b.score) || (a.score == b.score && decide (a.y0 ≤ b.y0))

/-- `find_title` (source lines 217-312). -/
def find_title (blocks : List Block) : String :=
  let fpb := firstPageBlocks blocks
  if fpb.isEmpty then ""
  else
    let scan := (titleLineTexts blocks).foldl rfpScanStep (none, none)
    match scan with
    | (some r, some p) => buildRfpTitle r p
    | _ =>
      let max_font_size :=
        ((fpb.filter (fun b => !(b.source == Src.ocr))).map
          (fun b => (blockSpans b).map (fun s => s.size))).flatten.foldl Qmax 0
      if Qeq max_font_size 0 then ""
      else
        let cands := (titleCandidates fpb max_font_size).mergeSort candLE
        match cands with
        | [] => ""
        | best :: rest =>
          let title_parts := rest.foldl (fun parts cand =>
            if cand.score + 2 ≥ best.score ∧
               Qabs (cand.y0 - (parts.getLastD best).y0) < best.size * (5/2) then
              parts ++ [cand]
            else parts) [best]
          let sorted_parts := title_parts.mergeSort (fun a b => decide (a.y0 ≤ b.y0))
          let joined := joinSpace (sorted_parts.map (fun p => p.text))
          let title := pyStripL (replaceDoubleSpace joined.length joined)
          if filenamePat (pyLower title) || decide (title.length < 3) then ""
          else ⟨title⟩

/-! ## C10: the RFP bypass of the title extractor -/

/-- The eligibility filter of the RFP scan (nonempty, at least 3 chars). -/
def titleEligible (t : List Char) : Bool := !(t.isEmpty || decide (t.length < 3))

/-- Last eligible first-page line containing 'rfp' (case-insensitively). -/
def lastRfpLine (blocks : List Block) : Option (List Char) :=
  ((titleLineTexts blocks).filter
    (fun t => titleEligible t && containsSub "rfp".data (pyLower t))).getLast?

/-- Last eligible first-page line containing 'to present a proposal'. -/
def lastProposalLine (blocks : List Block) : Option (List Char) :=
  ((titleLineTexts blocks).filter
    (fun t => titleEligible t && containsSub "to present a proposal".data (pyLower t))).getLast?

theorem rfpFold_fst (ts : List (List Char)) (acc : Option (List Char) × Option (List Char)) :
    (ts.foldl rfpScanStep acc).1 =
      ((ts.filter (fun t => titleEligible t && containsSub "rfp".data (pyLower t))).getLast?).or
        acc.1 := by
  induction ts generalizing acc with
  | nil => simp
  | cons t ts ih =>
    rw [List.foldl_cons, ih, List.filter_cons]
    unfold rfpScanStep titleEligible
    by_cases he : (t.isEmpty || decide (t.length < 3)) = true
    · simp only [he, if_true, Bool.not_true, Bool.false_and, Bool.false_eq_true, if_false]
    · rw [Bool.not_eq_true] at he
      simp only [he, Bool.not_false, Bool.true_and, Bool.false_eq_true, if_false]
      by_cases hr : containsSub "rfp".data (pyLower t) = true
      · simp only [hr, if_true, List.getLast?_cons]
        cases hlast : (ts.filter
            (fun t => (!(t.isEmpty || decide (t.length < 3))) &&
              containsSub "rfp".data (pyLower t))).getLast? with
        | none => simp [hlast]
        | some x => simp [hlast]
      · simp only [hr, Bool.false_eq_true, if_false]

theorem rfpFold_snd (ts : List (List Char)) (acc : Option (List Char) × Option (List Char)) :
    (ts.foldl rfpScanStep acc).2 =
      ((ts.filter (fun t => titleEligible t &&
          containsSub "to present a proposal".data (pyLower t))).getLast?).or acc.2 := by
  induction ts generalizing acc with
  | nil => simp
  | cons t ts ih =>
    rw [List.foldl_cons, ih, List.filter_cons]
    unfold rfpScanStep titleEligible
    by_cases he : (t.isEmpty || decide (t.length < 3)) = true
    · simp only [he, if_true, Bool.not_true, Bool.false_and, Bool.false_eq_true, if_false]
    · rw [Bool.not_eq_true] at he
      simp only [he, Bool.not_false, Bool.true_and, Bool.false_eq_true, if_false]
      by_cases hr : containsSub "to present a proposal".data (pyLower t) = true
      · simp only [hr, if_true, List.getLast?_cons]
        cases hlast : (ts.filter
            (fun t => (!(t.isEmpty || decide (t.length < 3))) &&
              containsSub "to present a proposal".data (pyLower t))).getLast? with
        | none => simp [hlast]
        | some x => simp [hlast]
      · simp only [hr, Bool.false_eq_true, if_false]

/-- C10: whenever some eligible first-page line contains 'rfp' and some
    eligible first-page line contains 'to present a proposal'
    (case-insensitively), `find_title` returns the cleaned last RFP line
    (repeated 'RFP:' prefixes and consecutive duplicate words removed)
    concatenated with the last proposal line — the score-based candidate
    selection is bypassed. -/
theorem c10_find_title_rfp_bypass (blocks : List Block) (r p : List Char)
    (hr : lastRfpLine blocks = some r) (hp : lastProposalLine blocks = some p) :
    find_title blocks = buildRfpTitle r p := by
  unfold lastRfpLine at hr
  unfold lastProposalLine at hp
  have hne : (firstPageBlocks blocks).isEmpty = false := by
    by_contra hcon
    rw [Bool.not_eq_false] at hcon
    have : firstPageBlocks blocks = [] := List.isEmpty_iff.mp hcon
    have htlt : titleLineTexts blocks = [] := by
      unfold titleLineTexts
      rw [this]
      rfl
    rw [htlt] at hr
    simp at hr
  have hfold : (titleLineTexts blocks).foldl rfpScanStep (none, none) = (some r, some p) := by
    have h1 := rfpFold_fst (titleLineTexts blocks) (none, none)
    have h2 := rfpFold_snd (titleLineTexts blocks) (none, none)
    rw [hr, Option.or_none] at h1
    rw [hp, Option.or_none] at h2
    exact Prod.ext h1 h2
  unfold find_title
  simp only [hne, Bool.false_eq_true, if_false, hfold]

/-- Witness block list for C10: an RFP line and a proposal line on page 0. -/
def c10blocks : List Block :=
  [{ btype := 0
     lines := [⟨[⟨"RFP: RFP: Request for Proposal", 20, "Bold"⟩], ⟨10, 10, 300, 30⟩⟩,
               ⟨[⟨"To Present a Proposal for Library Services", 14, "Reg"⟩], ⟨10, 40, 300, 55⟩⟩]
     bbox := ⟨10, 10, 300, 55⟩
     page_num := 0
     source := Src.pymupdf
     page_height := 842
     page_width := 595 }]

/-- Witness for C10 at a concrete two-line first page. -/
theorem c10_find_title_rfp_bypass_witness :
    lastRfpLine c10blocks = some "RFP: RFP: Request for Proposal".data ∧
      lastProposalLine c10blocks = some "To Present a Proposal for Library Services".data ∧
      find_title c10blocks =
        buildRfpTitle "RFP: RFP: Request for Proposal".data
          "To Present a Proposal for Library Services".data :=
  ⟨by decide, by decide,
    c10_find_title_rfp_bypass c10blocks _ _ (by decide) (by decide)⟩

/-! ## Heuristic classification stage (extract_structure_from_pdf, lines 762-790) -/

/-- One iteration of the heuristic classification loop: skip tabular and
    title blocks; try the numbered rule, then the styled rule; a classified
    block with nonempty cleaned text becomes a heading, an unclassified
    block goes to the ML queue. -/
def heuristicStep (filtered : List Block) (stats : DocStats) (title : String)
    (acc : List PipeHeading × List Block) (b : Block) :
    List PipeHeading × List Block :=
  if is_table_block b filtered stats then acc
  else if is_title_block b title then acc
  else
    match (classify_numbered_heading b (some filtered) (some stats)).or
          (classify_styled_heading b stats (some filtered)) with
    | some lvl =>
      let text := clean_heading_text ⟨concatStripText b⟩
      if text.data.isEmpty then acc
      else (acc.1 ++ [⟨lvl, text, b.page_num, b.bbox.y0, ""⟩], acc.2)
    | none => (acc.1, acc.2 ++ [b])

/-- The heuristic classification pass: (headings, blocks_for_ml). -/
def heuristic_classification (filtered : List Block) (stats : DocStats)
    (title : String) : List PipeHeading × List Block :=
  filtered.foldl (heuristicStep filtered stats title) ([], [])

/-! ## Feature vectors and the ML stage (source lines 599-670 and 794-838) -/

/-- The fixed-schema feature vector for the statistical fallback. -/
structure FeatureVec where
  font_size_ratio : Q
  is_bold : Nat
  word_count : Nat
  is_all_caps : Nat
  is_title_case : Nat
  is_form_field : Nat
  is_numbered_list : Nat
  is_page_number : Nat
  x_position_norm : Q
  y_position_norm : Q
  block_width_norm : Q
  block_height : Q
  space_above : Q
deriving DecidableEq, Repr

/-- The form-field keyword list of `create_feature_vector`. -/
def featureFormKeywords : List String :=
  ["name:", "date:", "address:", "tel:", "fax:", "email:", "phone:",
   "signature:", "approved:", "authorized:", "page", "of"]

/-- Regex `^\d+\.\s*[a-z]` on the lowered text. -/
def isNumberedListPat (l : List Char) : Bool :=
  let p := l.span Char.isDigit
  !p.1.isEmpty &&
    (match p.2 with
     | '.' :: r =>
       (match r.dropWhile pyIsSpace with
        | c :: _ => 'a' ≤ c && c ≤ 'z'
        | [] => false)
     | _ => false)

/-- `create_feature_vector` (source lines 599-670).  The divisions that
    would raise `ZeroDivisionError` in the guarded `try` block are modelled
    by the explicit zero-denominator tests. -/
def create_feature_vector (block : Block) (doc_stats : DocStats)
    (page_width page_height : Q) (prev_block : Option Block) : Option FeatureVec :=
  if block.source == Src.ocr then none
  else
    let spans := blockSpans block
    if spans.isEmpty then none
    else
      let full_text := pyStripL (joinSpace (spans.map (fun s => pyStripL s.text.data)))
      if full_text.isEmpty then none
      else
        let word_count := (pySplit full_text).length
        if word_count < 1 ∨ word_count > 50 then none
        else if Qeq (doc_stats.median_size + (1/1000000 : Q)) 0 ∨
                Qeq page_width 0 ∨ Qeq page_height 0 then none
        else
          let avg_font_size := (spans.map (fun s => s.size)).sum / Q.ofNat spans.length
          let text_lower := pyLower full_text
          some { font_size_ratio := avg_font_size / (doc_stats.median_size + (1/1000000 : Q))
                 is_bold := if spans.any (fun s => containsSub "bold".data (pyLower s.font.data))
                            then 1 else 0
                 word_count := word_count
                 is_all_caps := if pyIsUpper full_text && decide (full_text.length > 1)
                                then 1 else 0
                 is_title_case := if pyIsTitle full_text && decide (full_text.length > 1)
                                  then 1 else 0
                 is_form_field := if featureFormKeywords.any
                                    (fun k => containsSub k.data text_lower) then 1 else 0
                 is_numbered_list := if isNumberedListPat text_lower then 1 else 0
                 is_page_number := if pyIsDigitStr (pyStripL full_text) then 1 else 0
                 x_position_norm := block.bbox.x0 / page_width
                 y_position_norm := block.bbox.y0 / page_height
                 block_width_norm := (block.bbox.x1 - block.bbox.x0) / page_width
                 block_height := block.bbox.y1 - block.bbox.y0
                 space_above := match prev_block with
                                | some pb => block.bbox.y0 - pb.bbox.y1
                                | none => block.bbox.y0 }

/-- One iteration of the ML candidate-selection loop (source lines
    805-822): skip tabular and title blocks, build the feature vector with
    the page dimensions of the reopened document, and track `prev_block`
    (updated on every non-skipped iteration). -/
def mlSelectStep (filtered : List Block) (stats : DocStats) (title : String)
    (pages : List (Q × Q))
    (acc : List (Block × FeatureVec) × Option Block) (b : Block) :
    List (Block × FeatureVec) × Option Block :=
  if is_table_block b filtered stats then acc
  else if is_title_block b title then acc
  else
    let dims := pages.getD b.page_num (0, 0)
    match create_feature_vector b stats dims.1 dims.2 acc.2 with
    | some fv => (acc.1 ++ [(b, fv)], some b)
    | none => (acc.1, some b)

/-- The blocks (with their feature vectors) that reach the statistical
    fallback classifier. -/
def ml_valid_features (blocks_for_ml filtered : List Block) (stats : DocStats)
    (title : String) (pages : List (Q × Q)) : List (Block × FeatureVec) :=
  (blocks_for_ml.foldl (mlSelectStep filtered stats title pages) ([], none)).1

/-- The headings produced from the fallback classifier's predictions
    (source lines 825-838): rows predicted H1/H2/H3, with cleaned nonempty
    text. -/
def ml_headings (valid : List (Block × FeatureVec))
    (predictions : List (Option String)) : List PipeHeading :=
  ((valid.map (fun p => p.1)).zip predictions).filterMap (fun p =>
    match p.2 with
    | some label =>
      if label = "H1" ∨ label = "H2" ∨ label = "H3" then
        let text := clean_heading_text ⟨concatStripText p.1⟩
        if text.data.isEmpty then none
        else some ⟨label, text, p.1.page_num, p.1.bbox.y0, ""⟩
      else none
    | none => none)

/-! ## The Block Provider and the public entry point -/

/-- A raw block of `page.get_text("dict")["blocks"]`: its type tag, its
    lines (when the 'lines' key is present), and its bounding box. -/
structure RawDict where
  btype : Nat
  lines : Option (List LineB)
  bbox : BBox
deriving DecidableEq, Repr

/-- A synthetic OCR block (the output of `ocr_page_to_blocks` for one
    grouped line; a failed page OCR is an empty block list). -/
structure RawOcr where
  bbox : BBox
  lines : List LineB
deriving DecidableEq, Repr

/-- One page as supplied by the external page-content/OCR providers:
    dimensions, the native text-block count used by `is_scanned_page`, the
    native dict blocks, and the OCR result used when the page is scanned. -/
structure PageData where
  width : Q
  height : Q
  textBlockCount : Nat
  dictBlocks : List RawDict
  ocrBlocks : List RawOcr
deriving DecidableEq, Repr

/-- The environment of one extraction: the document base name, the pages
    (`none` models a document-open failure), and the opaque classifier
    artifact (`none` models missing model/encoder files, whose predictions
    are then all `None`). -/
structure PdfEnv where
  name : String
  pages : Option (List PageData)
  mlPredict : Option (List FeatureVec → List String)

/-- `extract_text_blocks` (source lines 166-201): every page is checked by
    `is_scanned_page` (fewer than 3 native text blocks); scanned pages
    contribute their OCR blocks, native pages their type-0 dict blocks with
    lines, all annotated with page number, origin and page dimensions. -/
def extract_text_blocks (env : PdfEnv) : List Block :=
  match env.pages with
  | none => []
  | some pages =>
    (pages.enum.map (fun pp =>
      if pp.2.textBlockCount < 3 then
        pp.2.ocrBlocks.map (fun ob =>
          { btype := 0, lines := ob.lines, bbox := ob.bbox, page_num := pp.1,
            source := Src.ocr, page_height := pp.2.height, page_width := pp.2.width })
      else
        pp.2.dictBlocks.filterMap (fun db =>
          match db.lines with
          | some ls =>
            if db.btype = 0 then
              some { btype := db.btype, lines := ls, bbox := db.bbox, page_num := pp.1,
                     source := Src.pymupdf, page_height := pp.2.height,
                     page_width := pp.2.width }
            else none
          | none => none))).flatten

/-- The extractor's final result. -/
structure ExtractResult where
  title : String
  outline : List Heading
deriving DecidableEq, Repr

/-- The stable sort key (page, y_pos) of the final heading ordering. -/
def headingSortLE (a b : PipeHeading) : Bool :=
  decide (a.page < b.page) || (a.page == b.page && decide (a.y_pos ≤ b.y_pos))

/-- `extract_structure_from_pdf` (source lines 729-861). -/
def extract_structure_from_pdf (env : PdfEnv) : ExtractResult :=
  let all_blocks := extract_text_blocks env
  if all_blocks.isEmpty then ⟨"", []⟩
  else
    let num_pages := (all_blocks.map (fun b => b.page_num)).foldl max 0 + 1
    let doc_stats := get_document_stats all_blocks
    let title0 := find_title all_blocks
    let title := if title0.data.isEmpty || pyLower title0.data == pyLower env.name.data
                 then "" else title0
    let filtered := remove_headers_footers_tables all_blocks num_pages doc_stats
    let hres := heuristic_classification filtered doc_stats title
    let headings := hres.1 ++
      (if hres.2.isEmpty then []
       else
         let pages := (env.pages.getD []).map (fun p => (p.width, p.height))
         let valid := ml_valid_features hres.2 filtered doc_stats title pages
         if (valid.map (fun p => p.2)).isEmpty then []
         else
           let predictions : List (Option String) :=
             match env.mlPredict with
             | none => List.replicate (valid.map (fun p => p.2)).length none
             | some f => (f (valid.map (fun p => p.2))).map some
           ml_headings valid predictions)
    let sorted := headings.mergeSort headingSortLE
    let withContent := associate_content_to_headings sorted filtered
    let outline := withContent.map
      (fun h => Heading.mk h.level (clean_heading_text h.text) h.page h.content)
    ⟨title, validate_hierarchy outline⟩

/-! ## C8: failure modes of the public entry point -/

theorem ml_headings_all_none (valid : List (Block × FeatureVec)) (n : Nat) :
    ml_headings valid (List.replicate n none) = [] := by
  unfold ml_headings
  induction valid generalizing n with
  | nil => simp
  | cons v vs ih =>
    cases n with
    | zero => simp
    | succ n =>
      simp only [List.map_cons, List.replicate_succ, List.zip_cons_cons,
        List.filterMap_cons]
      exact ih n

/-- C8: the extractor's entry point is a total function of its environment
    (no exception propagates in the model); a document-open failure, or a
    document yielding no text blocks, returns the empty result
    {title: "", outline: []}; and missing classifier artifacts (all
    predictions `None`) contribute no ML headings, degrading the outline
    instead of failing. -/
theorem c8_extract_structure_failure_modes (env : PdfEnv) :
    (env.pages = none → extract_structure_from_pdf env = ⟨"", []⟩) ∧
      (extract_text_blocks env = [] → extract_structure_from_pdf env = ⟨"", []⟩) ∧
      (∀ valid : List (Block × FeatureVec), ∀ n : Nat,
        ml_headings valid (List.replicate n none) = []) := by
  have hblocks : extract_text_blocks env = [] → extract_structure_from_pdf env = ⟨"", []⟩ := by
    intro h
    unfold extract_structure_from_pdf
    rw [h]
    rfl
  refine ⟨?_, hblocks, fun valid n => ml_headings_all_none valid n⟩
  intro hpages
  apply hblocks
  unfold extract_text_blocks
  rw [hpages]

/-- Witness for C8: an environment whose document fails to open. -/
theorem c8_extract_structure_failure_modes_witness :
    (PdfEnv.mk "doc.pdf" none none).pages = none ∧
      extract_structure_from_pdf (PdfEnv.mk "doc.pdf" none none) = ⟨"", []⟩ :=
  ⟨rfl, (c8_extract_structure_failure_modes (PdfEnv.mk "doc.pdf" none none)).1 rfl⟩

/-! ## C5: title exclusion -/

theorem is_title_block_false_ratio (b : Block) (title : String)
    (ht : title ≠ "") (h : is_title_block b title = false) :
    Q.ofNat (titleOverlap title b) / Q.ofNat (titleWords title).length ≤ (7 : Q)/10 := by
  unfold is_title_block at h
  have hne : title.data.isEmpty = false := by
    cases hd : title.data.isEmpty
    · rfl
    · exfalso
      apply ht
      have hdata : title.data = [] := List.isEmpty_iff.mp hd
      cases title with
      | mk d =>
        simp only at hdata
        rw [hdata]
  rw [hne] at h
  simp only [Bool.false_eq_true, if_false] at h
  by_cases hlen : (titleWords title).length ≠ 0
  · rw [if_pos hlen] at h
    have hnot := of_decide_eq_false h
    exact (Q.not_lt_iff _ _).mp hnot
  · push_neg at hlen
    rw [hlen]
    show (Q.ofNat (titleOverlap title b) / Q.ofNat 0).num * ((7 : Q)/10).den ≤
      ((7 : Q)/10).num * (Q.ofNat (titleOverlap title b) / Q.ofNat 0).den
    show (Int.ofNat (titleOverlap title b) * 0) * (1 * 10) ≤ (7 * 1) * (1 * 1)
    simp

/-- The relation between an emitted heading and its source block. -/
def headForBlock (title : String) (filtered : List Block) (h : PipeHeading) : Prop :=
  ∃ b ∈ filtered, is_title_block b title = false ∧
    h.text = clean_heading_text ⟨concatStripText b⟩ ∧
    h.page = b.page_num ∧ h.y_pos = b.bbox.y0

theorem heuristicStep_sound (filtered : List Block) (stats : DocStats) (title : String)
    (acc : List PipeHeading × List Block) (b : Block) (hb : b ∈ filtered)
    (hacc1 : ∀ h ∈ acc.1, headForBlock title filtered h)
    (hacc2 : ∀ x ∈ acc.2, x ∈ filtered ∧ is_title_block x title = false) :
    (∀ h ∈ (heuristicStep filtered stats title acc b).1, headForBlock title filtered h) ∧
      (∀ x ∈ (heuristicStep filtered stats title acc b).2,
        x ∈ filtered ∧ is_title_block x title = false) := by
  unfold heuristicStep
  by_cases h1 : is_table_block b filtered stats = true
  · simp only [h1, if_true]
    exact ⟨hacc1, hacc2⟩
  · rw [Bool.not_eq_true] at h1
    simp only [h1, Bool.false_eq_true, if_false]
    by_cases h2 : is_title_block b title = true
    · simp only [h2, if_true]
      exact ⟨hacc1, hacc2⟩
    · rw [Bool.not_eq_true] at h2
      simp only [h2, Bool.false_eq_true, if_false]
      cases hcl : (classify_numbered_heading b (some filtered) (some stats)).or
          (classify_styled_heading b stats (some filtered)) with
      | none =>
        refine ⟨hacc1, ?_⟩
        intro x hx
        rcases List.mem_append.mp hx with hx1 | hx1
        · exact hacc2 x hx1
        · rw [List.mem_singleton] at hx1
          subst hx1
          exact ⟨hb, h2⟩
      | some lvl =>
        by_cases htx : (clean_heading_text ⟨concatStripText b⟩).data.isEmpty = true
        · simp only [htx, if_true]
          exact ⟨hacc1, hacc2⟩
        · rw [Bool.not_eq_true] at htx
          simp only [htx, Bool.false_eq_true, if_false]
          refine ⟨?_, hacc2⟩
          intro h hh
          rcases List.mem_append.mp hh with hh1 | hh1
          · exact hacc1 h hh1
          · rw [List.mem_singleton] at hh1
            subst hh1
            exact ⟨b, hb, h2, rfl, rfl, rfl⟩

theorem heuristicFold_sound (filtered : List Block) (stats : DocStats) (title : String) :
    ∀ (bs : List Block) (acc : List PipeHeading × List Block),
      (∀ b ∈ bs, b ∈ filtered) →
      (∀ h ∈ acc.1, headForBlock title filtered h) →
      (∀ x ∈ acc.2, x ∈ filtered ∧ is_title_block x title = false) →
      (∀ h ∈ (bs.foldl (heuristicStep filtered stats title) acc).1,
          headForBlock title filtered h) ∧
        (∀ x ∈ (bs.foldl (heuristicStep filtered stats title) acc).2,
          x ∈ filtered ∧ is_title_block x title = false) := by
  intro bs
  induction bs with
  | nil =>
    intro acc _ hacc1 hacc2
    exact ⟨hacc1, hacc2⟩
  | cons b bs ih =>
    intro acc hbs hacc1 hacc2
    rw [List.foldl_cons]
    have hstep := heuristicStep_sound filtered stats title acc b
      (hbs b (List.mem_cons_self b bs)) hacc1 hacc2
    exact ih _ (fun x hx => hbs x (List.mem_cons_of_mem b hx)) hstep.1 hstep.2

theorem mlSelectStep_sound (filtered : List Block) (stats : DocStats) (title : String)
    (pages : List (Q × Q)) (acc : List (Block × FeatureVec) × Option Block) (b : Block)
    (hb : b ∈ filtered)
    (hacc : ∀ x ∈ acc.1, x.1 ∈ filtered ∧ is_title_block x.1 title = false) :
    ∀ x ∈ (mlSelectStep filtered stats title pages acc b).1,
      x.1 ∈ filtered ∧ is_title_block x.1 title = false := by
  unfold mlSelectStep
  by_cases h1 : is_table_block b filtered stats = true
  · simp only [h1, if_true]
    exact hacc
  · rw [Bool.not_eq_true] at h1
    simp only [h1, Bool.false_eq_true, if_false]
    by_cases h2 : is_title_block b title = true
    · simp only [h2, if_true]
      exact hacc
    · rw [Bool.not_eq_true] at h2
      simp only [h2, Bool.false_eq_true, if_false]
      cases hfv : create_feature_vector b stats (pages.getD b.page_num (0, 0)).1
          (pages.getD b.page_num (0, 0)).2 acc.2 with
      | none => exact hacc
      | some fv =>
        intro x hx
        rcases List.mem_append.mp hx with hx1 | hx1
        · exact hacc x hx1
        · rw [List.mem_singleton] at hx1
          subst hx1
          exact ⟨hb, h2⟩

theorem mlSelectFold_sound (filtered : List Block) (stats : DocStats) (title : String)
    (pages : List (Q × Q)) :
    ∀ (bs : List Block) (acc : List (Block × FeatureVec) × Option Block),
      (∀ b ∈ bs, b ∈ filtered) →
      (∀ x ∈ acc.1, x.1 ∈ filtered ∧ is_title_block x.1 title = false) →
      ∀ x ∈ (bs.foldl (mlSelectStep filtered stats title pages) acc).1,
        x.1 ∈ filtered ∧ is_title_block x.1 title = false := by
  intro bs
  induction bs with
  | nil =>
    intro acc _ hacc
    exact hacc
  | cons b bs ih =>
    intro acc hbs hacc
    rw [List.foldl_cons]
    exact ih _ (fun x hx => hbs x (List.mem_cons_of_mem b hx))
      (mlSelectStep_sound filtered stats title pages acc b
        (hbs b (List.mem_cons_self b bs)) hacc)

theorem ml_headings_mem (valid : List (Block × FeatureVec))
    (preds : List (Option String)) (h : PipeHeading)
    (hh : h ∈ ml_headings valid preds) :
    ∃ b, (∃ fv, (b, fv) ∈ valid) ∧
      h.text = clean_heading_text ⟨concatStripText b⟩ ∧
      h.page = b.page_num ∧ h.y_pos = b.bbox.y0 := by
  unfold ml_headings at hh
  obtain ⟨p, hp, hsome⟩ := List.mem_filterMap.mp hh
  have hmem := List.of_mem_zip hp
  obtain ⟨x, hx, hxeq⟩ := List.mem_map.mp hmem.1
  refine ⟨p.1, ⟨x.2, by rw [← hxeq]; exact hx⟩, ?_⟩
  cases hp2 : p.2 with
  | none => rw [hp2] at hsome; simp at hsome
  | some label =>
    rw [hp2] at hsome
    simp only at hsome
    by_cases hlab : label = "H1" ∨ label = "H2" ∨ label = "H3"
    · rw [if_pos hlab] at hsome
      by_cases htx : (clean_heading_text ⟨concatStripText p.1⟩).data.isEmpty = true
      · rw [if_pos htx] at hsome
        simp at hsome
      · rw [if_neg htx] at hsome
        cases hsome
        exact ⟨rfl, rfl, rfl⟩
    · rw [if_neg hlab] at hsome
      simp at hsome

/-- C5 (amended): for a nonempty title, every heading emitted by the
    heuristic pass and by the ML pass (under arbitrary predictions)
    originates from a filtered block whose `is_title_block` test is false —
    i.e. whose word set contains at most 70% of the title's distinct words.
    (Blocks are excluded from classification only; content association,
    which uses all filtered blocks, is not covered by the exclusion.) -/
theorem c5_title_exclusion_amended (filtered : List Block) (stats : DocStats)
    (title : String) (pages : List (Q × Q)) (predictions : List (Option String))
    (ht : title ≠ "") :
    ∀ h ∈ (heuristic_classification filtered stats title).1 ++
        ml_headings (ml_valid_features (heuristic_classification filtered stats title).2
          filtered stats title pages) predictions,
      ∃ b ∈ filtered, is_title_block b title = false ∧
        Q.ofNat (titleOverlap title b) / Q.ofNat (titleWords title).length ≤ (7 : Q)/10 ∧
        h.text = clean_heading_text ⟨concatStripText b⟩ ∧
        h.page = b.page_num ∧ h.y_pos = b.bbox.y0 := by
  intro h hmem
  have hfold := heuristicFold_sound filtered stats title filtered ([], [])
    (fun b hb => hb) (fun h hh => absurd hh (List.not_mem_nil h))
    (fun x hx => absurd hx (List.not_mem_nil x))
  rcases List.mem_append.mp hmem with hmem1 | hmem1
  · obtain ⟨b, hb, hbt, htext, hpage, hy⟩ := hfold.1 h hmem1
    exact ⟨b, hb, hbt, is_title_block_false_ratio b title ht hbt, htext, hpage, hy⟩
  · obtain ⟨b, ⟨fv, hbv⟩, htext, hpage, hy⟩ := ml_headings_mem _ predictions h hmem1
    have hvalid := mlSelectFold_sound filtered stats title pages
      (heuristic_classification filtered stats title).2 ([], none)
      (fun b' hb' => (hfold.2 b' hb').1)
      (fun x hx => absurd hx (List.not_mem_nil x))
    have hbprops := hvalid (b, fv) hbv
    exact ⟨b, hbprops.1, hbprops.2,
      is_title_block_false_ratio b title ht hbprops.2, htext, hpage, hy⟩

/-- The C5 counterexample title: ten distinct words. -/
def c5title : String := "alpha bravo charlie delta echo foxtrot golf hotel india juliet"

/-- The C5 counterexample block: exactly seven of the ten title words,
    large and bold. -/
def c5block : Block :=
  { btype := 0
    lines := [⟨[⟨"Alpha Bravo Charlie Delta Echo Foxtrot Golf", 20, "Arial-Bold"⟩],
               ⟨40, 50, 300, 74⟩⟩]
    bbox := ⟨40, 50, 300, 74⟩
    page_num := 0
    source := Src.pymupdf
    page_height := 842
    page_width := 595 }

/-- C5 counterexample: a block containing exactly 70% of the title's
    distinct words is *not* excluded (`is_title_block` uses a strict
    `> 0.7` test) and is emitted as an H1 heading by the heuristic pass,
    so a heading whose word set covers at least 70% of the title's words
    does get emitted. -/
theorem c5_title_exclusion_counterexample :
    is_title_block c5block c5title = false ∧
      Q.ofNat (titleOverlap c5title c5block) /
          Q.ofNat (titleWords c5title).length ≥ (7 : Q)/10 ∧
      (heuristic_classification [c5block] ⟨12⟩ c5title).1 =
        [⟨"H1", "Alpha Bravo Charlie Delta Echo Foxtrot Golf", 0, 50, ""⟩] := by
  refine ⟨by decide, by decide, by decide⟩

/-- Witness for C5's amended theorem at the concrete block above. -/
theorem c5_title_exclusion_witness :
    (c5title ≠ "") ∧
      (⟨"H1", "Alpha Bravo Charlie Delta Echo Foxtrot Golf", 0, 50, ""⟩ : PipeHeading) ∈
        (heuristic_classification [c5block] ⟨12⟩ c5title).1 ++
          ml_headings (ml_valid_features (heuristic_classification [c5block] ⟨12⟩ c5title).2
            [c5block] ⟨12⟩ c5title []) [] ∧
      ∃ b ∈ [c5block], is_title_block b c5title = false ∧
        Q.ofNat (titleOverlap c5title b) / Q.ofNat (titleWords c5title).length ≤ (7 : Q)/10 ∧
        (⟨"H1", "Alpha Bravo Charlie Delta Echo Foxtrot Golf", 0, 50, ""⟩ : PipeHeading).text =
          clean_heading_text ⟨concatStripText b⟩ ∧
        (⟨"H1", "Alpha Bravo Charlie Delta Echo Foxtrot Golf", 0, 50, ""⟩ : PipeHeading).page =
          b.page_num ∧
        (⟨"H1", "Alpha Bravo Charlie Delta Echo Foxtrot Golf", 0, 50, ""⟩ : PipeHeading).y_pos =
          b.bbox.y0 :=
  ⟨by decide, by decide,
    c5_title_exclusion_amended [c5block] ⟨12⟩ c5title [] [] (by decide) _ (by decide)⟩
